import Mathlib

/-!
# kafka-notify: the notification producer

A shallow embedding of `cmd/producer/producer.go` and `pkg/models/models.go`.

* A Go string is a sequence of bytes, not necessarily well-formed UTF-8: `GoString` is a list of
  bytes, each byte a natural number below 256. Text written in the source is the UTF-8 encoding
  `utf8 "..."` of the literal.
* Go `int` is the 64-bit signed integer; ids are carried as `Int` (no arithmetic is performed on
  them by the program, so no wrap-around can occur; `Atoi` only yields values in range).
* Calls through the `sarama.SyncProducer` interface and the directory look-ups are recorded in an
  explicit event trace carried by the `World`.
* The Unicode tables behind `unicode.IsPrint` (used by `strconv.Quote` in the text of a parse
  error) are a parameter `printTable` of the model.
-/

namespace KafkaNotify

/-! ## Go strings and UTF-8 -/

/-- A Go string: its bytes, in order. -/
abbrev GoString := List Nat

/-- The UTF-8 encoding of a code point (`utf8.AppendRune`): one to four bytes. -/
def encodeRune (r : Nat) : List Nat :=
  if r < 128 then [r]
  else if r < 2048 then [192 + r / 64, 128 + r % 64]
  else if r < 65536 then [224 + r / 4096, 128 + r / 64 % 64, 128 + r % 64]
  else [240 + r / 262144, 128 + r / 4096 % 64, 128 + r / 64 % 64, 128 + r % 64]

/-- The Go string of a text written in the source: its UTF-8 encoding. -/
def utf8 (s : String) : GoString := s.data.flatMap (fun c => encodeRune c.toNat)

/-- The rune `utf8.RuneError`, U+FFFD. -/
def RuneError : Nat := 65533

/-- The function `utf8.DecodeRuneInString`: the first rune of the bytes and its width; an
ill-formed or truncated encoding gives `(RuneError, 1)`, the empty string `(RuneError, 0)`.
The second byte is checked against the range its lead byte accepts, so that over-long forms,
surrogates and values above U+10FFFF are ill-formed. -/
def decodeRune : List Nat → Nat × Nat
  | [] => (RuneError, 0)
  | s0 :: rest =>
    if s0 < 128 then (s0, 1)
    else if s0 < 194 then (RuneError, 1)
    else if s0 < 224 then
      match rest with
      | s1 :: _ =>
        if 128 ≤ s1 ∧ s1 ≤ 191 then (s0 % 32 * 64 + s1 % 64, 2) else (RuneError, 1)
      | [] => (RuneError, 1)
    else if s0 < 240 then
      match rest with
      | s1 :: s2 :: _ =>
        if (if s0 = 224 then 160 else 128) ≤ s1 ∧ s1 ≤ (if s0 = 237 then 159 else 191) then
          if 128 ≤ s2 ∧ s2 ≤ 191 then (s0 % 16 * 4096 + s1 % 64 * 64 + s2 % 64, 3)
          else (RuneError, 1)
        else (RuneError, 1)
      | _ => (RuneError, 1)
    else if s0 < 245 then
      match rest with
      | s1 :: s2 :: s3 :: _ =>
        if (if s0 = 240 then 144 else 128) ≤ s1 ∧ s1 ≤ (if s0 = 244 then 143 else 191) then
          if 128 ≤ s2 ∧ s2 ≤ 191 then
            if 128 ≤ s3 ∧ s3 ≤ 191 then
              (s0 % 8 * 262144 + s1 % 64 * 4096 + s2 % 64 * 64 + s3 % 64, 4)
            else (RuneError, 1)
          else (RuneError, 1)
        else (RuneError, 1)
      | _ => (RuneError, 1)
    else (RuneError, 1)

/-- The loop of `utf8.ValidString`; `fuel` bounds the number of runes. -/
def validLoop : Nat → List Nat → Bool
  | _, [] => true
  | 0, _ :: _ => false
  | fuel + 1, b :: bs =>
    if b < 128 then validLoop fuel bs
    else if (decodeRune (b :: bs)).1 = RuneError ∧ (decodeRune (b :: bs)).2 = 1 then false
    else validLoop fuel ((b :: bs).drop (decodeRune (b :: bs)).2)

/-- The function `utf8.ValidString`: the bytes are well-formed UTF-8. -/
def validUTF8 (s : GoString) : Bool := validLoop s.length s

/-! ## pkg/models/models.go -/

/-- The Go struct `models.User` (JSON keys `id`, `name`). -/
structure User where
  ID : Int
  Name : GoString
deriving DecidableEq

/-- The Go struct `models.Notification` (JSON keys `from`, `to`, `message`). -/
structure Notification where
  From : User
  To : User
  Message : GoString
deriving DecidableEq

deriving instance DecidableEq for Except

/-! ## Go error values -/

/-- Error values that can flow through the producer.

* `userNotFound` is the package-level sentinel `ErrUserNotFoundInProducer`.
* `foreign text` is an error value built outside package `main` (by `strconv`, `encoding/json`
  or `sarama`); such a value cannot be, nor wrap, the sentinel of package `main`, which is never
  handed to a library.
* `wrapf head inner` is `fmt.Errorf(head + "%w", inner)`. -/
inductive GoError where
  | userNotFound : GoError
  | foreign (text : GoString) : GoError
  | wrapf (head : GoString) (inner : GoError) : GoError
deriving DecidableEq

/-- The method `Error()` of an error value. -/
def GoError.Error : GoError → GoString
  | .userNotFound => utf8 "user not found"
  | .foreign text => text
  | .wrapf head inner => head ++ inner.Error

/-- The call `errors.Is(err, ErrUserNotFoundInProducer)`: walks the `%w` chain of `err`. -/
def GoError.isUserNotFound : GoError → Bool
  | .userNotFound => true
  | .foreign _ => false
  | .wrapf _ inner => inner.isUserNotFound

/-- The sentinel `ErrUserNotFoundInProducer`. -/
def ErrUserNotFoundInProducer : GoError := GoError.userNotFound

/-! ## Constants -/

def ProducerPort : GoString := utf8 "8080"
def KafkaServerAddress : GoString := utf8 "localhost:9092"
def KafkaTopic : GoString := utf8 "notification"

/-! ## findUserByID -/

/-- The function `findUserByID`: a linear scan returning at the first user whose `ID` is `id`. -/
def findUserByID (id : Int) : List User → Except GoError User
  | [] => .error ErrUserNotFoundInProducer
  | user :: users => if user.ID = id then .ok user else findUserByID id users

/-! ## strconv -/

/-- The largest value of the Go type `int` (64 bits). -/
def maxInt : Int := 2 ^ 63 - 1

/-- The smallest value of the Go type `int` (64 bits). -/
def minInt : Int := -(2 ^ 63)

/-- The two kinds of `strconv.NumError`: `ErrSyntax` and `ErrRange`. -/
inductive NumErr where
  | syntaxErr : NumErr
  | rangeErr : NumErr
deriving DecidableEq

/-- A byte that is a decimal digit, `'0'` to `'9'`. -/
def isDigitByte (b : Nat) : Bool := decide (48 ≤ b ∧ b ≤ 57)

/-- The digit loop of `strconv.ParseUint(s, 10, 64)`: every byte must be a decimal digit, and the
accumulated value must stay below `2 ^ 64`. -/
def parseUintLoop : List Nat → Nat → Except NumErr Nat
  | [], n => .ok n
  | c :: cs, n =>
    if isDigitByte c = false then .error .syntaxErr
    else if n ≥ (2 ^ 64 - 1) / 10 + 1 then .error .rangeErr
    else if n * 10 + (c - 48) ≥ 2 ^ 64 then .error .rangeErr
    else parseUintLoop cs (n * 10 + (c - 48))

/-- The integer parser behind `strconv.Atoi` (`strconv.ParseInt(s, 10, 0)`): an optional sign
(`'+'` is byte 43, `'-'` byte 45), then a non-empty run of decimal digits whose value fits the
64-bit `int`. -/
def parseInt (s : List Nat) : Except NumErr Int :=
  match s with
  | [] => .error .syntaxErr
  | c :: cs =>
    let neg : Bool := decide (c = 45)
    let ds : List Nat := if c = 43 ∨ c = 45 then cs else c :: cs
    match ds with
    | [] => .error .syntaxErr
    | d :: ds1 =>
      match parseUintLoop (d :: ds1) 0 with
      | .error e => .error e
      | .ok un =>
        if neg = false ∧ un ≥ 2 ^ 63 then .error .rangeErr
        else if neg = true ∧ un > 2 ^ 63 then .error .rangeErr
        else .ok (if neg then -(un : Int) else (un : Int))

/-- The sixteen hexadecimal digits `0123456789abcdef` used by `strconv` and `encoding/json`:
the digit for the low four bits of `n`. -/
def hexDigit (n : Nat) : Nat :=
  if n % 16 < 10 then 48 + n % 16 else 87 + n % 16

/-- The function `unicode.IsPrint`: decided directly for Latin-1, by the Unicode tables
`printTable` above it. -/
def IsPrint (printTable : Nat → Bool) (r : Nat) : Bool :=
  if r ≤ 255 then
    if 32 ≤ r ∧ r ≤ 126 then true
    else if 161 ≤ r ∧ r ≤ 255 then decide (r ≠ 173)
    else false
  else printTable r

/-- The function `appendEscapedRune` of `strconv`, as `Quote` calls it (double quote, neither
ASCII-only nor graphic-only). -/
def appendEscapedRune (printTable : Nat → Bool) (r : Nat) : List Nat :=
  if r = 34 ∨ r = 92 then [92, r]
  else if IsPrint printTable r = true then encodeRune r
  else if r = 7 then [92, 97]
  else if r = 8 then [92, 98]
  else if r = 12 then [92, 102]
  else if r = 10 then [92, 110]
  else if r = 13 then [92, 114]
  else if r = 9 then [92, 116]
  else if r = 11 then [92, 118]
  else if r < 32 ∨ r = 127 then [92, 120, hexDigit (r / 16), hexDigit r]
  else if r > 1114111 ∨ (55296 ≤ r ∧ r ≤ 57343) then
    [92, 117, hexDigit (RuneError / 4096), hexDigit (RuneError / 256), hexDigit (RuneError / 16),
      hexDigit RuneError]
  else if r < 65536 then
    [92, 117, hexDigit (r / 4096), hexDigit (r / 256), hexDigit (r / 16), hexDigit r]
  else
    [92, 85, hexDigit (r / 268435456), hexDigit (r / 16777216), hexDigit (r / 1048576),
      hexDigit (r / 65536), hexDigit (r / 4096), hexDigit (r / 256), hexDigit (r / 16),
      hexDigit r]

/-- The loop of `strconv.Quote` over the runes of the string: an ill-formed byte is written
`\xNN`, every other rune goes through `appendEscapedRune`; `fuel` bounds the number of runes. -/
def quoteLoop (printTable : Nat → Bool) : Nat → List Nat → List Nat
  | _, [] => []
  | 0, _ :: _ => []
  | fuel + 1, b :: bs =>
    if b < 128 then appendEscapedRune printTable b ++ quoteLoop printTable fuel bs
    else if (decodeRune (b :: bs)).2 = 1 ∧ (decodeRune (b :: bs)).1 = RuneError then
      [92, 120, hexDigit (b / 16), hexDigit b] ++ quoteLoop printTable fuel bs
    else
      appendEscapedRune printTable (decodeRune (b :: bs)).1 ++
        quoteLoop printTable fuel ((b :: bs).drop (decodeRune (b :: bs)).2)

/-- The function `strconv.Quote`. -/
def Quote (printTable : Nat → Bool) (s : GoString) : GoString :=
  34 :: (quoteLoop printTable s.length s ++ [34])

/-- The text of a `strconv.NumError` produced by `Atoi` on the input `s`. -/
def numErrorText (printTable : Nat → Bool) (s : GoString) : NumErr → GoString
  | .syntaxErr => utf8 "strconv.Atoi: parsing " ++ Quote printTable s ++ utf8 ": invalid syntax"
  | .rangeErr =>
    utf8 "strconv.Atoi: parsing " ++ Quote printTable s ++ utf8 ": value out of range"

/-- The function `strconv.Atoi`. -/
def Atoi (printTable : Nat → Bool) (s : GoString) : Except GoError Int :=
  match parseInt s with
  | .error e => .error (.foreign (numErrorText printTable s e))
  | .ok n => .ok n

/-- The decimal digits of a natural number, most significant first (the loop of
`strconv.FormatInt` in base ten); `fuel` bounds the number of digits. -/
def formatDigits : Nat → Nat → List Nat
  | 0, _ => []
  | fuel + 1, n =>
    if n < 10 then [48 + n]
    else formatDigits fuel (n / 10) ++ [48 + n % 10]

/-- The decimal digits of a natural number. -/
def formatUint (n : Nat) : List Nat := formatDigits (n + 1) n

/-- The function `strconv.Itoa`: a minus sign for a negative number, then the digits. -/
def Itoa (i : Int) : GoString :=
  if i < 0 then 45 :: formatUint i.natAbs else formatUint i.natAbs

/-! ## encoding/json -/

/-- One byte below 128 of a JSON string as written by `encoding/json` (`appendString` with HTML
escaping, which `json.Marshal` turns on): the quote and the backslash get a backslash, the
control characters, `<`, `>` and `&` are escaped, everything else is copied. Backspace and form
feed are written `\b` and `\f`, as Go 1.22 and later do. -/
def escapeByte (b : Nat) : List Nat :=
  if 32 ≤ b ∧ b ≠ 34 ∧ b ≠ 38 ∧ b ≠ 60 ∧ b ≠ 62 ∧ b ≠ 92 then [b]
  else if b = 92 ∨ b = 34 then [92, b]
  else if b = 8 then [92, 98]
  else if b = 12 then [92, 102]
  else if b = 10 then [92, 110]
  else if b = 13 then [92, 114]
  else if b = 9 then [92, 116]
  else [92, 117, 48, 48, hexDigit (b / 16), hexDigit b]

/-- The loop of `appendString`: a byte below 128 goes through `escapeByte`; an ill-formed byte
is written as the six characters backslash, `u`, `fffd`; U+2028 and U+2029 are written as
backslash, `u`, `2028` and `2029`; the bytes of any other rune are copied. `fuel` bounds the
number of runes. -/
def appendStringLoop : Nat → List Nat → List Nat
  | _, [] => []
  | 0, _ :: _ => []
  | fuel + 1, b :: bs =>
    if b < 128 then escapeByte b ++ appendStringLoop fuel bs
    else if (decodeRune (b :: bs)).1 = RuneError ∧ (decodeRune (b :: bs)).2 = 1 then
      utf8 "\\ufffd" ++ appendStringLoop fuel bs
    else if (decodeRune (b :: bs)).1 = 8232 ∨ (decodeRune (b :: bs)).1 = 8233 then
      utf8 "\\u202" ++ [hexDigit (decodeRune (b :: bs)).1] ++
        appendStringLoop fuel ((b :: bs).drop (decodeRune (b :: bs)).2)
    else
      (b :: bs).take (decodeRune (b :: bs)).2 ++
        appendStringLoop fuel ((b :: bs).drop (decodeRune (b :: bs)).2)

/-- A Go string marshalled as a JSON string. -/
def jsonString (s : GoString) : GoString := 34 :: (appendStringLoop s.length s ++ [34])

/-- The encoding `json.Marshal` gives a `models.User`: the fields in declaration order under
their `json` tags. -/
def marshalUser (u : User) : GoString :=
  utf8 "\x7b\"id\":" ++ Itoa u.ID ++ utf8 ",\"name\":" ++ jsonString u.Name ++ utf8 "\x7d"

/-- The encoding `json.Marshal` gives a `models.Notification`. -/
def marshalNotification (n : Notification) : GoString :=
  utf8 "\x7b\"from\":" ++ marshalUser n.From ++ utf8 ",\"to\":" ++ marshalUser n.To ++
    utf8 ",\"message\":" ++ jsonString n.Message ++ utf8 "\x7d"

/-- The call `json.Marshal(notification)`. Marshalling a struct of integers and strings has no
failing case. -/
def jsonMarshal (n : Notification) : Except GoError GoString := .ok (marshalNotification n)

/-! ## gin -/

/-- The part of `gin.Context` the handler reads: the form fields of the POST request, in the
order in which they were sent. -/
structure Context where
  form : List (GoString × GoString)

/-- The method `ctx.PostForm(key)`: the first value of the form field, the empty string when
the field is absent. -/
def Context.PostForm (ctx : Context) (key : GoString) : GoString :=
  match ctx.form.find? (fun kv => kv.1 == key) with
  | some kv => kv.2
  | none => []

/-- The response written by `ctx.JSON(status, gin.H{"message": message})`. -/
structure Response where
  status : Nat
  message : GoString
deriving DecidableEq

/-- The JSON body of a response. -/
def Response.body (r : Response) : GoString :=
  utf8 "\x7b\"message\":" ++ jsonString r.message ++ utf8 "\x7d"

def StatusOK : Nat := 200
def StatusBadRequest : Nat := 400
def StatusNotFound : Nat := 404
def StatusInternalServerError : Nat := 500

/-! ## sarama -/

/-- The Go struct `sarama.ProducerMessage`, restricted to the fields the producer sets. -/
structure ProducerMessage where
  Topic : GoString
  Key : GoString
  Value : GoString
deriving DecidableEq

/-- The interface `sarama.SyncProducer`: `SendMessage` takes the broker from one state to the
next and returns `none` when the broker acknowledged the message, or the text of the error. -/
structure SyncProducer (σ : Type) where
  SendMessage : σ → ProducerMessage → σ × Option GoString

/-- What the program does to its collaborators: a directory look-up, or a call of
`SendMessage` together with the error it returned. -/
inductive Event where
  | lookup (id : Int) : Event
  | send (msg : ProducerMessage) (err : Option GoString) : Event
deriving DecidableEq

/-- The state outside the handler: the broker, and the events so far, oldest first. -/
structure World (σ : Type) where
  broker : σ
  trace : List Event

/-- The messages handed to `SendMessage` in a trace, oldest first. -/
def sends : List Event → List ProducerMessage
  | [] => []
  | Event.lookup _ :: es => sends es
  | Event.send msg _ :: es => msg :: sends es

/-- The messages the broker acknowledged in a trace, oldest first. -/
def acked : List Event → List ProducerMessage
  | [] => []
  | Event.send msg none :: es => msg :: acked es
  | _ :: es => acked es

/-- The directory look-ups of a trace, oldest first. -/
def lookups : List Event → List Int
  | [] => []
  | Event.lookup id :: es => id :: lookups es
  | Event.send _ _ :: es => lookups es

/-! ## cmd/producer/producer.go -/

/-- The function `getIDFromRequest`. -/
def getIDFromRequest (printTable : Nat → Bool) (formValue : GoString) (ctx : Context) :
    Except GoError Int :=
  match Atoi printTable (ctx.PostForm formValue) with
  | .error err =>
    .error (.wrapf (utf8 "failed to parse ID from form value " ++ formValue ++ utf8 ":") err)
  | .ok id => .ok id

/-- The function `sendKafkaMessage`; the result is the returned error (`none` for `nil`) and
the world after the call. -/
def sendKafkaMessage {σ : Type} (producer : SyncProducer σ) (users : List User) (ctx : Context)
    (fromID toID : Int) (w : World σ) : Option GoError × World σ :=
  let message := ctx.PostForm (utf8 "message")
  let w1 : World σ := { w with trace := w.trace ++ [Event.lookup fromID] }
  match findUserByID fromID users with
  | .error err => (some err, w1)
  | .ok fromUser =>
    let w2 : World σ := { w1 with trace := w1.trace ++ [Event.lookup toID] }
    match findUserByID toID users with
    | .error err => (some err, w2)
    | .ok toUser =>
      let notification : Notification := { From := fromUser, To := toUser, Message := message }
      match jsonMarshal notification with
      | .error err => (some (.wrapf (utf8 "failed to marshal notificaiton: ") err), w2)
      | .ok notificationJSON =>
        let msg : ProducerMessage :=
          { Topic := KafkaTopic, Key := Itoa toUser.ID, Value := notificationJSON }
        let r := producer.SendMessage w2.broker msg
        (r.2.map GoError.foreign, { broker := r.1, trace := w2.trace ++ [Event.send msg r.2] })

/-- The handler returned by `sendMessageHandler`, run on one request. -/
def sendMessageHandler {σ : Type} (printTable : Nat → Bool) (producer : SyncProducer σ)
    (users : List User) (ctx : Context) (w : World σ) : Response × World σ :=
  match getIDFromRequest printTable (utf8 "fromID") ctx with
  | .error err => ({ status := StatusBadRequest, message := err.Error }, w)
  | .ok fromID =>
    match getIDFromRequest printTable (utf8 "toID") ctx with
    | .error err => ({ status := StatusBadRequest, message := err.Error }, w)
    | .ok toID =>
      match sendKafkaMessage producer users ctx fromID toID w with
      | (some err, w1) =>
        if err.isUserNotFound then
          ({ status := StatusNotFound, message := utf8 "User not found" }, w1)
        else ({ status := StatusInternalServerError, message := err.Error }, w1)
      | (none, w1) =>
        ({ status := StatusOK, message := utf8 "Notification sent successfully!" }, w1)

/-- The `sarama.ProducerMessage` that `sendKafkaMessage` builds once the sender and the
recipient are resolved. -/
def producerMessage (fromUser toUser : User) (message : GoString) : ProducerMessage :=
  { Topic := KafkaTopic, Key := Itoa toUser.ID,
    Value := marshalNotification { From := fromUser, To := toUser, Message := message } }

/-- The directory built in `main`. -/
def mainUsers : List User :=
  [{ ID := 1, Name := utf8 "Emma" }, { ID := 2, Name := utf8 "Bruno" },
    { ID := 3, Name := utf8 "Rick" }, { ID := 4, Name := utf8 "Lena" }]

/-! ## Vocabulary of the interface description -/

/-- An integer string, as the HTTP interface asks of `fromID` and `toID`: an optional sign
followed by one or more decimal digits. -/
def isIntegerString (s : GoString) : Bool :=
  match s with
  | [] => false
  | c :: cs =>
    if c = 43 ∨ c = 45 then !cs.isEmpty && cs.all isDigitByte
    else (c :: cs).all isDigitByte

/-- An id field that is missing from the form, or that does not hold an integer string. -/
def badIDField (ctx : Context) (key : GoString) : Prop :=
  (∀ kv ∈ ctx.form, kv.1 ≠ key) ∨ isIntegerString (ctx.PostForm key) = false

/-- The number a run of decimal digits denotes. -/
def digitsValue (ds : List Nat) : Nat :=
  ds.foldl (fun acc c => acc * 10 + (c - 48)) 0

/-! ## The broker publication format

The value on the topic is the JSON object
`{"from": {"id": int, "name": string}, "to": {"id": int, "name": string}, "message": string}`.
`jsonObject` writes such an object from its members, and `readNotification` reads one back into
a `Notification`. -/

/-- One member `"key":value` of a JSON object. -/
def jsonMember (kv : GoString × GoString) : GoString := jsonString kv.1 ++ utf8 ":" ++ kv.2

/-- The members of a JSON object, separated by commas. -/
def jsonMembers : List (GoString × GoString) → GoString
  | [] => []
  | [kv] => jsonMember kv
  | kv :: kvs => jsonMember kv ++ utf8 "," ++ jsonMembers kvs

/-- A JSON object with the given members (key and rendered value), in order. -/
def jsonObject (members : List (GoString × GoString)) : GoString :=
  utf8 "\x7b" ++ jsonMembers members ++ utf8 "\x7d"

/-- A user of the publication format: `{"id": int, "name": string}`. -/
def userJson (u : User) : GoString :=
  jsonObject [(utf8 "id", Itoa u.ID), (utf8 "name", jsonString u.Name)]

/-- A notification of the publication format. -/
def notificationJson (n : Notification) : GoString :=
  jsonObject [(utf8 "from", userJson n.From), (utf8 "to", userJson n.To),
    (utf8 "message", jsonString n.Message)]

/-- Strips the text `lit` from the front of the input. -/
def expectText : List Nat → List Nat → Option (List Nat)
  | [], input => some input
  | _ :: _, [] => none
  | l :: ls, c :: cs => if l = c then expectText ls cs else none

/-- The value of a hexadecimal digit. -/
def hexValue (c : Nat) : Option Nat :=
  if 48 ≤ c ∧ c ≤ 57 then some (c - 48)
  else if 97 ≤ c ∧ c ≤ 102 then some (c - 87)
  else if 65 ≤ c ∧ c ≤ 70 then some (c - 55)
  else none

/-- The byte a one-letter JSON escape stands for. -/
def unescapeByte (c : Nat) : Option Nat :=
  if c = 34 ∨ c = 92 ∨ c = 47 then some c
  else if c = 98 then some 8
  else if c = 102 then some 12
  else if c = 110 then some 10
  else if c = 114 then some 13
  else if c = 116 then some 9
  else none

/-- Where the reader of a JSON string stands: in plain text, right after a backslash, or inside
a `u` escape with `left` hexadecimal digits to go and `value` read so far. -/
inductive ReadMode where
  | plain : ReadMode
  | escape : ReadMode
  | hex (left value : Nat) : ReadMode

/-- Reads a JSON string from just after its opening quote to its closing quote; gives the bytes
of the string it denotes (`acc` holds those read so far, last first) and the rest of the input.
A `u` escape denotes the UTF-8 encoding of its code point; surrogate pairs are not read. -/
def readStringBody : ReadMode → List Nat → List Nat → Option (List Nat × List Nat)
  | _, _, [] => none
  | .plain, acc, c :: cs =>
    if c = 34 then some (acc.reverse, cs)
    else if c = 92 then readStringBody .escape acc cs
    else readStringBody .plain (c :: acc) cs
  | .escape, acc, c :: cs =>
    if c = 117 then readStringBody (.hex 4 0) acc cs
    else
      match unescapeByte c with
      | some d => readStringBody .plain (d :: acc) cs
      | none => none
  | .hex 0 _, _, _ :: _ => none
  | .hex (k + 1) v, acc, c :: cs =>
    match hexValue c with
    | none => none
    | some h =>
      if k = 0 then readStringBody .plain ((encodeRune (v * 16 + h)).reverse ++ acc) cs
      else readStringBody (.hex k (v * 16 + h)) acc cs

/-- Reads a non-empty run of decimal digits. -/
def readDigits (input : List Nat) : Option (Nat × List Nat) :=
  match input.takeWhile isDigitByte with
  | [] => none
  | d :: ds => some (digitsValue (d :: ds), input.dropWhile isDigitByte)

/-- Reads a JSON integer: an optional minus sign and a non-empty run of digits. -/
def readInt (input : List Nat) : Option (Int × List Nat) :=
  match input with
  | [] => none
  | c :: cs =>
    if c = 45 then (readDigits cs).map (fun r => (-(r.1 : Int), r.2))
    else (readDigits (c :: cs)).map (fun r => ((r.1 : Int), r.2))

/-- Reads a user `{"id":int,"name":string}`. -/
def readUser (input : List Nat) : Option (User × List Nat) := do
  let r1 ← expectText (utf8 "\x7b\"id\":") input
  let (id, r2) ← readInt r1
  let r3 ← expectText (utf8 ",\"name\":\"") r2
  let (name, r4) ← readStringBody .plain [] r3
  let r5 ← expectText (utf8 "\x7d") r4
  pure ({ ID := id, Name := name }, r5)

/-- Reads a whole broker value `{"from":user,"to":user,"message":string}`. -/
def readNotification (value : GoString) : Option Notification := do
  let r1 ← expectText (utf8 "\x7b\"from\":") value
  let (fromUser, r2) ← readUser r1
  let r3 ← expectText (utf8 ",\"to\":") r2
  let (toUser, r4) ← readUser r3
  let r5 ← expectText (utf8 ",\"message\":\"") r4
  let (message, r6) ← readStringBody .plain [] r5
  let r7 ← expectText (utf8 "\x7d") r6
  if r7 = [] then pure { From := fromUser, To := toUser, Message := message } else none

/-- The loop of the coercion to valid UTF-8 that `encoding/json` documents for string values:
every byte that is not part of a well-formed encoding is replaced by the encoding of U+FFFD,
everything else is kept. `fuel` bounds the number of runes. -/
def coerceLoop : Nat → List Nat → List Nat
  | _, [] => []
  | 0, _ :: _ => []
  | fuel + 1, b :: bs =>
    if b < 128 then b :: coerceLoop fuel bs
    else if (decodeRune (b :: bs)).1 = RuneError ∧ (decodeRune (b :: bs)).2 = 1 then
      encodeRune RuneError ++ coerceLoop fuel bs
    else
      (b :: bs).take (decodeRune (b :: bs)).2 ++
        coerceLoop fuel ((b :: bs).drop (decodeRune (b :: bs)).2)

/-- A Go string coerced to valid UTF-8. -/
def coerceUTF8 (s : GoString) : GoString := coerceLoop s.length s

/-- A user whose name is coerced to valid UTF-8. -/
def coerceUser (u : User) : User := { ID := u.ID, Name := coerceUTF8 u.Name }

/-- A notification whose three texts are coerced to valid UTF-8. -/
def coerceNotification (n : Notification) : Notification :=
  { From := coerceUser n.From, To := coerceUser n.To, Message := coerceUTF8 n.Message }

/-! ## Example brokers -/

/-- A broker that appends every message to its topic log and acknowledges it. -/
def appendBroker : SyncProducer (List ProducerMessage) :=
  ⟨fun log msg => (log ++ [msg], none)⟩

/-- A broker that is unreachable: every send fails and nothing is stored. -/
def downBroker : SyncProducer (List ProducerMessage) :=
  ⟨fun log _ => (log, some (utf8 "kafka: client has run out of available brokers to talk to"))⟩

/-- The world at start-up: an empty topic, nothing done yet. -/
def startWorld : World (List ProducerMessage) := ⟨[], []⟩

/-- A stand-in for the Unicode tables of `unicode.IsPrint`, used in examples only: it holds
every rune above Latin-1 to be printable. -/
def examplePrintTable : Nat → Bool := fun _ => true

/-! ## The scenario of the testable properties -/

/-- The directory of the scenario: Emma (1) and Bruno (2). -/
def scenarioUsers : List User :=
  [{ ID := 1, Name := utf8 "Emma" }, { ID := 2, Name := utf8 "Bruno" }]

/-- The message the broker is to receive in the scenario: key "2" and the value spelled out. -/
def scenarioMessage : ProducerMessage :=
  { Topic := utf8 "notification", Key := utf8 "2",
    Value := utf8 "\x7b\"from\":\x7b\"id\":1,\"name\":\"Emma\"\x7d,\"to\":\x7b\"id\":2,\"name\":\"Bruno\"\x7d,\"message\":\"hi\"\x7d" }

/-- A request whose message is not well-formed UTF-8: the bytes `a`, 0xFF, `b`. -/
def illFormedRequest : Context :=
  ⟨[(utf8 "fromID", utf8 "1"), (utf8 "toID", utf8 "2"), (utf8 "message", [97, 255, 98])]⟩

/-- The value the broker receives for `illFormedRequest` from user 1 to user 2 of `main`: its
message holds the six bytes of a `u` escape for U+FFFD in place of the byte 0xFF. -/
def coercedValue : GoString :=
  utf8
    "\x7b\"from\":\x7b\"id\":1,\"name\":\"Emma\"\x7d,\"to\":\x7b\"id\":2,\"name\":\"Bruno\"\x7d,\"message\":\"a\\ufffdb\"\x7d"

/-! # Properties -/

/-! ## Traces -/

theorem sends_append (xs ys : List Event) : sends (xs ++ ys) = sends xs ++ sends ys := by
  induction xs with
  | nil => rfl
  | cons e es ih => cases e <;> simp [sends, ih]

theorem acked_append (xs ys : List Event) : acked (xs ++ ys) = acked xs ++ acked ys := by
  induction xs with
  | nil => rfl
  | cons e es ih =>
    cases e with
    | lookup id => simp [acked, ih]
    | send msg err => cases err <;> simp [acked, ih]

theorem lookups_append (xs ys : List Event) : lookups (xs ++ ys) = lookups xs ++ lookups ys := by
  induction xs with
  | nil => rfl
  | cons e es ih => cases e <;> simp [lookups, ih]

/-! ## The directory scan -/

theorem findUserByID_error_eq (id : Int) (users : List User) (e : GoError)
    (h : findUserByID id users = .error e) : e = ErrUserNotFoundInProducer := by
  induction users with
  | nil => simp [findUserByID] at h; exact h.symm
  | cons u us ih =>
    by_cases hu : u.ID = id
    · simp [findUserByID, hu] at h
    · simp only [findUserByID, hu, if_false] at h; exact ih h

theorem findUserByID_error_iff (id : Int) (users : List User) :
    findUserByID id users = .error ErrUserNotFoundInProducer ↔ ∀ v ∈ users, v.ID ≠ id := by
  induction users with
  | nil => simp [findUserByID]
  | cons u us ih =>
    by_cases hu : u.ID = id
    · simp [findUserByID, hu]
    · simp [findUserByID, hu, ih]

theorem findUserByID_ok_iff (id : Int) (users : List User) (u : User) :
    findUserByID id users = .ok u ↔
      ∃ pre post, users = pre ++ u :: post ∧ u.ID = id ∧ ∀ v ∈ pre, v.ID ≠ id := by
  induction users with
  | nil => simp [findUserByID]
  | cons x xs ih =>
    by_cases hx : x.ID = id
    · simp only [findUserByID, hx, if_true]
      constructor
      · intro h
        injection h with h
        subst h
        exact ⟨[], xs, rfl, hx, by simp⟩
      · rintro ⟨pre, post, hsplit, _, hpre⟩
        cases pre with
        | nil =>
          simp only [List.nil_append, List.cons.injEq] at hsplit
          rw [hsplit.1]
        | cons p ps =>
          simp only [List.cons_append, List.cons.injEq] at hsplit
          exact absurd hx (hsplit.1 ▸ hpre p (List.mem_cons_self _ _))
    · simp only [findUserByID, hx, if_false, ih]
      constructor
      · rintro ⟨pre, post, hsplit, hid, hpre⟩
        refine ⟨x :: pre, post, by simp [hsplit], hid, ?_⟩
        intro v hv
        rcases List.mem_cons.1 hv with rfl | hv
        · exact hx
        · exact hpre v hv
      · rintro ⟨pre, post, hsplit, hid, hpre⟩
        cases pre with
        | nil =>
          simp only [List.nil_append, List.cons.injEq] at hsplit
          exact absurd (hsplit.1 ▸ hid) hx
        | cons p ps =>
          simp only [List.cons_append, List.cons.injEq] at hsplit
          exact ⟨ps, post, hsplit.2, hid, fun v hv => hpre v (List.mem_cons_of_mem _ hv)⟩

theorem findUserByID_ok_ID (id : Int) (users : List User) (u : User)
    (h : findUserByID id users = .ok u) : u.ID = id ∧ u ∈ users := by
  obtain ⟨pre, post, hsplit, hid, _⟩ := (findUserByID_ok_iff id users u).1 h
  exact ⟨hid, by simp [hsplit]⟩

theorem findUserByID_total (id : Int) (users : List User) :
    (∃ u, findUserByID id users = .ok u) ∨
      findUserByID id users = .error ErrUserNotFoundInProducer := by
  cases h : findUserByID id users with
  | ok u => exact Or.inl ⟨u, rfl⟩
  | error e => rw [findUserByID_error_eq id users e h]; exact Or.inr rfl

/-- C6: `findUserByID` returns a user exactly when that user is the first one in list order
whose `ID` is the requested id (users sharing an id included), it returns the user-not-found
error exactly when no user of the list has that id, and it returns one or the other. -/
theorem findUserByID_first_match (id : Int) (users : List User) :
    (∀ u, findUserByID id users = .ok u ↔
      ∃ pre post, users = pre ++ u :: post ∧ u.ID = id ∧ ∀ v ∈ pre, v.ID ≠ id) ∧
    (findUserByID id users = .error ErrUserNotFoundInProducer ↔ ∀ v ∈ users, v.ID ≠ id) ∧
    ((∃ u, findUserByID id users = .ok u) ∨
      findUserByID id users = .error ErrUserNotFoundInProducer) :=
  ⟨findUserByID_ok_iff id users, findUserByID_error_iff id users, findUserByID_total id users⟩

/-! ## sendKafkaMessage, case by case -/

theorem sendKafkaMessage_from_unknown {σ : Type} (producer : SyncProducer σ) (users : List User)
    (ctx : Context) (fromID toID : Int) (w : World σ)
    (h : findUserByID fromID users = .error ErrUserNotFoundInProducer) :
    sendKafkaMessage producer users ctx fromID toID w =
      (some ErrUserNotFoundInProducer,
        { broker := w.broker, trace := w.trace ++ [Event.lookup fromID] }) := by
  simp [sendKafkaMessage, h]

theorem sendKafkaMessage_to_unknown {σ : Type} (producer : SyncProducer σ) (users : List User)
    (ctx : Context) (fromID toID : Int) (w : World σ) (fromUser : User)
    (hf : findUserByID fromID users = .ok fromUser)
    (h : findUserByID toID users = .error ErrUserNotFoundInProducer) :
    sendKafkaMessage producer users ctx fromID toID w =
      (some ErrUserNotFoundInProducer,
        { broker := w.broker, trace := w.trace ++ [Event.lookup fromID, Event.lookup toID] }) := by
  simp [sendKafkaMessage, hf, h]

/-- The message `sendKafkaMessage` builds for a resolved sender and recipient. -/
theorem sendKafkaMessage_resolved {σ : Type} (producer : SyncProducer σ) (users : List User)
    (ctx : Context) (fromID toID : Int) (w : World σ) (fromUser toUser : User)
    (hf : findUserByID fromID users = .ok fromUser)
    (ht : findUserByID toID users = .ok toUser) :
    sendKafkaMessage producer users ctx fromID toID w =
      ((producer.SendMessage w.broker
            { Topic := KafkaTopic, Key := Itoa toUser.ID,
              Value := marshalNotification
                { From := fromUser, To := toUser, Message := ctx.PostForm (utf8 "message") } }).2.map
          GoError.foreign,
        { broker := (producer.SendMessage w.broker
            { Topic := KafkaTopic, Key := Itoa toUser.ID,
              Value := marshalNotification
                { From := fromUser, To := toUser, Message := ctx.PostForm (utf8 "message") } }).1,
          trace := w.trace ++ [Event.lookup fromID, Event.lookup toID,
            Event.send
              { Topic := KafkaTopic, Key := Itoa toUser.ID,
                Value := marshalNotification
                  { From := fromUser, To := toUser, Message := ctx.PostForm (utf8 "message") } }
              (producer.SendMessage w.broker
                { Topic := KafkaTopic, Key := Itoa toUser.ID,
                  Value := marshalNotification
                    { From := fromUser, To := toUser, Message := ctx.PostForm (utf8 "message") } }).2] }) := by
  simp [sendKafkaMessage, hf, ht, jsonMarshal]

theorem sendKafkaMessage_unknown {σ : Type} (producer : SyncProducer σ) (users : List User)
    (ctx : Context) (fromID toID : Int) (w : World σ)
    (h : (∀ u ∈ users, u.ID ≠ fromID) ∨ (∀ u ∈ users, u.ID ≠ toID)) :
    (sendKafkaMessage producer users ctx fromID toID w).1 = some ErrUserNotFoundInProducer ∧
    (sendKafkaMessage producer users ctx fromID toID w).2.broker = w.broker ∧
    sends (sendKafkaMessage producer users ctx fromID toID w).2.trace = sends w.trace := by
  rcases findUserByID_total fromID users with ⟨fu, hf⟩ | hf
  · have ht : findUserByID toID users = .error ErrUserNotFoundInProducer := by
      rcases h with h | h
      · rw [(findUserByID_error_iff fromID users).2 h] at hf; cases hf
      · exact (findUserByID_error_iff toID users).2 h
    rw [sendKafkaMessage_to_unknown producer users ctx fromID toID w fu hf ht]
    simp [sends_append, sends]
  · rw [sendKafkaMessage_from_unknown producer users ctx fromID toID w hf]
    simp [sends_append, sends]

/-- C1: when at least one of the two ids matches no user of the directory, `sendKafkaMessage`
returns the user-not-found error, leaves the broker untouched and adds no send to the trace;
and the handler, on a request whose id fields parse to these ids, answers 404 with the message
"User not found", again without any send. -/
theorem unknown_user_not_found {σ : Type} (producer : SyncProducer σ) (users : List User)
    (ctx : Context) (fromID toID : Int) (w : World σ)
    (h : (∀ u ∈ users, u.ID ≠ fromID) ∨ (∀ u ∈ users, u.ID ≠ toID)) :
    ((sendKafkaMessage producer users ctx fromID toID w).1 = some ErrUserNotFoundInProducer ∧
      (sendKafkaMessage producer users ctx fromID toID w).2.broker = w.broker ∧
      sends (sendKafkaMessage producer users ctx fromID toID w).2.trace = sends w.trace) ∧
    (∀ printTable : Nat → Bool,
      Atoi printTable (ctx.PostForm (utf8 "fromID")) = .ok fromID →
      Atoi printTable (ctx.PostForm (utf8 "toID")) = .ok toID →
      (sendMessageHandler printTable producer users ctx w).1 =
        { status := 404, message := utf8 "User not found" } ∧
      (sendMessageHandler printTable producer users ctx w).1.body =
        utf8 "\x7b\"message\":\"User not found\"\x7d" ∧
      (sendMessageHandler printTable producer users ctx w).2.broker = w.broker ∧
      sends (sendMessageHandler printTable producer users ctx w).2.trace = sends w.trace) := by
  have hk := sendKafkaMessage_unknown producer users ctx fromID toID w h
  refine ⟨hk, ?_⟩
  intro printTable hfrom hto
  obtain ⟨h1, h2, h3⟩ := hk
  have hrun : sendMessageHandler printTable producer users ctx w =
      ({ status := 404, message := utf8 "User not found" },
        (sendKafkaMessage producer users ctx fromID toID w).2) := by
    simp only [sendMessageHandler, getIDFromRequest, hfrom, hto]
    generalize sendKafkaMessage producer users ctx fromID toID w = r at h1
    obtain ⟨e, w1⟩ := r
    simp only at h1
    subst h1
    simp [ErrUserNotFoundInProducer, GoError.isUserNotFound, StatusNotFound]
  rw [hrun]
  refine ⟨rfl, ?_, h2, h3⟩
  show Response.body { status := 404, message := utf8 "User not found" } = _
  decide

/-- An instance, at the directory of `main`: sender 1 exists, recipient 99 does not. -/
theorem unknown_user_not_found_witness :
    ((∀ u ∈ mainUsers, u.ID ≠ 1) ∨ (∀ u ∈ mainUsers, u.ID ≠ 99)) ∧
    (sendMessageHandler examplePrintTable appendBroker mainUsers
        ⟨[(utf8 "fromID", utf8 "1"), (utf8 "toID", utf8 "99"), (utf8 "message", utf8 "hi")]⟩
        startWorld).1 =
      { status := 404, message := utf8 "User not found" } :=
  ⟨Or.inr (by decide),
    ((unknown_user_not_found appendBroker mainUsers
      ⟨[(utf8 "fromID", utf8 "1"), (utf8 "toID", utf8 "99"), (utf8 "message", utf8 "hi")]⟩ 1 99
      startWorld (Or.inr (by decide))).2 examplePrintTable (by decide) (by decide)).1⟩

/-! ## The handler, case by case -/

theorem sendMessageHandler_parsed {σ : Type} (printTable : Nat → Bool)
    (producer : SyncProducer σ) (users : List User) (ctx : Context) (fromID toID : Int) (w : World σ)
    (hfrom : Atoi printTable (ctx.PostForm (utf8 "fromID")) = .ok fromID)
    (hto : Atoi printTable (ctx.PostForm (utf8 "toID")) = .ok toID) :
    sendMessageHandler printTable producer users ctx w =
      match sendKafkaMessage producer users ctx fromID toID w with
      | (some err, w1) =>
        if err.isUserNotFound then ({ status := 404, message := utf8 "User not found" }, w1)
        else ({ status := 500, message := err.Error }, w1)
      | (none, w1) =>
        ({ status := 200, message := utf8 "Notification sent successfully!" }, w1) := by
  simp only [sendMessageHandler, getIDFromRequest, hfrom, hto]
  rfl

/-- C4: when both ids parse and match a user of the directory and `SendMessage` returns an
error, the handler answers 500 (so neither 404 nor 200) with the text of that error as message. -/
theorem broker_failure_gives_500 {σ : Type} (printTable : Nat → Bool)
    (producer : SyncProducer σ) (users : List User) (ctx : Context) (fromID toID : Int) (w : World σ) (fromUser toUser : User) (text : GoString)
    (hfrom : Atoi printTable (ctx.PostForm (utf8 "fromID")) = .ok fromID)
    (hto : Atoi printTable (ctx.PostForm (utf8 "toID")) = .ok toID)
    (hf : findUserByID fromID users = .ok fromUser)
    (ht : findUserByID toID users = .ok toUser)
    (hsend : (producer.SendMessage w.broker
        { Topic := KafkaTopic, Key := Itoa toUser.ID,
          Value := marshalNotification
            { From := fromUser, To := toUser, Message := ctx.PostForm (utf8 "message") } }).2 =
      some text) :
    (sendMessageHandler printTable producer users ctx w).1 = { status := 500, message := text } ∧
    (sendMessageHandler printTable producer users ctx w).1.status ≠ 404 ∧
    (sendMessageHandler printTable producer users ctx w).1.status ≠ 200 := by
  have hrun : (sendMessageHandler printTable producer users ctx w).1 =
      { status := 500, message := text } := by
    rw [sendMessageHandler_parsed printTable producer users ctx fromID toID w hfrom hto,
      sendKafkaMessage_resolved producer users ctx fromID toID w fromUser toUser hf ht, hsend]
    simp [GoError.isUserNotFound, GoError.Error]
  rw [hrun]
  exact ⟨rfl, by simp, by simp⟩

/-- An instance, at the directory of `main`, with a broker that refuses every message. -/
theorem broker_failure_gives_500_witness :
    (sendMessageHandler examplePrintTable downBroker mainUsers
        ⟨[(utf8 "fromID", utf8 "1"), (utf8 "toID", utf8 "2"), (utf8 "message", utf8 "hi")]⟩
        startWorld).1 =
      { status := 500,
        message := utf8 "kafka: client has run out of available brokers to talk to" } :=
  (broker_failure_gives_500 examplePrintTable downBroker mainUsers
    ⟨[(utf8 "fromID", utf8 "1"), (utf8 "toID", utf8 "2"), (utf8 "message", utf8 "hi")]⟩ 1 2
    startWorld { ID := 1, Name := utf8 "Emma" } { ID := 2, Name := utf8 "Bruno" }
    (utf8 "kafka: client has run out of available brokers to talk to")
    (by decide) (by decide) (by decide) (by decide) rfl).1

/-- C5: when both ids parse and match a user of the directory and `SendMessage` returns no
error, the handler answers 200 with the message "Notification sent successfully!", whatever the
message field holds (absent and empty included). -/
theorem success_gives_200 {σ : Type} (printTable : Nat → Bool)
    (producer : SyncProducer σ) (users : List User) (ctx : Context) (fromID toID : Int) (w : World σ) (fromUser toUser : User)
    (hfrom : Atoi printTable (ctx.PostForm (utf8 "fromID")) = .ok fromID)
    (hto : Atoi printTable (ctx.PostForm (utf8 "toID")) = .ok toID)
    (hf : findUserByID fromID users = .ok fromUser)
    (ht : findUserByID toID users = .ok toUser)
    (hsend : (producer.SendMessage w.broker
        { Topic := KafkaTopic, Key := Itoa toUser.ID,
          Value := marshalNotification
            { From := fromUser, To := toUser, Message := ctx.PostForm (utf8 "message") } }).2 = none) :
    (sendMessageHandler printTable producer users ctx w).1 =
      { status := 200, message := utf8 "Notification sent successfully!" } := by
  rw [sendMessageHandler_parsed printTable producer users ctx fromID toID w hfrom hto,
    sendKafkaMessage_resolved producer users ctx fromID toID w fromUser toUser hf ht, hsend]
  rfl

/-- An instance, at the directory of `main`, with an empty message. -/
theorem success_gives_200_witness :
    (sendMessageHandler examplePrintTable appendBroker mainUsers
        ⟨[(utf8 "fromID", utf8 "1"), (utf8 "toID", utf8 "2"), (utf8 "message", [])]⟩
        startWorld).1 =
      { status := 200, message := utf8 "Notification sent successfully!" } :=
  success_gives_200 examplePrintTable appendBroker mainUsers
    ⟨[(utf8 "fromID", utf8 "1"), (utf8 "toID", utf8 "2"), (utf8 "message", [])]⟩ 1 2 startWorld
    { ID := 1, Name := utf8 "Emma" } { ID := 2, Name := utf8 "Bruno" }
    (by decide) (by decide) (by decide) (by decide) rfl

/-! ## Parsing the id fields -/

theorem parseUintLoop_nondigit (cs : List Nat) (h : cs.all isDigitByte = false) (n : Nat) :
    ∃ e, parseUintLoop cs n = .error e := by
  induction cs generalizing n with
  | nil => simp at h
  | cons c cs ih =>
    unfold parseUintLoop
    by_cases hc : isDigitByte c = false
    · exact ⟨NumErr.syntaxErr, by simp [hc]⟩
    · have hc1 : isDigitByte c = true := by simpa using hc
      have hcs : cs.all isDigitByte = false := by
        simpa [List.all_cons, hc1] using h
      rw [if_neg hc]
      by_cases h1 : n ≥ (2 ^ 64 - 1) / 10 + 1
      · exact ⟨NumErr.rangeErr, by simp only [h1, if_true]⟩
      · by_cases h2 : n * 10 + (c - 48) ≥ 2 ^ 64
        · exact ⟨NumErr.rangeErr, by simp only [h1, h2, if_true, if_false]⟩
        · obtain ⟨e, he⟩ := ih hcs (n * 10 + (c - 48))
          exact ⟨e, by simp only [h1, h2, if_false, he]⟩

theorem parseInt_not_integer (s : GoString) (h : isIntegerString s = false) :
    ∃ e, parseInt s = .error e := by
  unfold isIntegerString at h
  unfold parseInt
  cases s with
  | nil => exact ⟨_, rfl⟩
  | cons c cs =>
    simp only at h ⊢
    by_cases hsign : c = 43 ∨ c = 45
    · simp only [hsign, if_true] at h ⊢
      cases cs with
      | nil => exact ⟨_, rfl⟩
      | cons d ds1 =>
        have hd : (d :: ds1).all isDigitByte = false := by simpa using h
        obtain ⟨e, he⟩ := parseUintLoop_nondigit (d :: ds1) hd 0
        exact ⟨e, by simp only [he]⟩
    · simp only [hsign, if_false] at h ⊢
      obtain ⟨e, he⟩ := parseUintLoop_nondigit (c :: cs) h 0
      exact ⟨e, by simp only [he]⟩

theorem PostForm_missing (ctx : Context) (key : GoString) (h : ∀ kv ∈ ctx.form, kv.1 ≠ key) :
    ctx.PostForm key = [] := by
  unfold Context.PostForm
  have : ctx.form.find? (fun kv => kv.1 == key) = none := by
    rw [List.find?_eq_none]
    intro kv hkv
    simpa using h kv hkv
  rw [this]

theorem getIDFromRequest_bad (printTable : Nat → Bool) (ctx : Context) (key : GoString)
    (h : badIDField ctx key) : ∃ e, getIDFromRequest printTable key ctx = .error e := by
  have hs : isIntegerString (ctx.PostForm key) = false := by
    rcases h with h | h
    · rw [PostForm_missing ctx key h]; rfl
    · exact h
  obtain ⟨e, he⟩ := parseInt_not_integer _ hs
  exact ⟨GoError.wrapf (utf8 "failed to parse ID from form value " ++ key ++ utf8 ":")
    (GoError.foreign (numErrorText printTable (ctx.PostForm key) e)),
    by simp only [getIDFromRequest, Atoi, he]⟩

/-- C3: when the `fromID` or the `toID` field is missing or is not an integer string, the
handler answers 400 and leaves the world as it found it: no directory look-up and no call of
`SendMessage` was made, whatever the directory, the broker and the other fields are. -/
theorem bad_id_gives_400 {σ : Type} (printTable : Nat → Bool) (producer : SyncProducer σ)
    (users : List User) (ctx : Context) (w : World σ)
    (h : badIDField ctx (utf8 "fromID") ∨ badIDField ctx (utf8 "toID")) :
    (sendMessageHandler printTable producer users ctx w).1.status = 400 ∧
    (sendMessageHandler printTable producer users ctx w).2 = w ∧
    lookups (sendMessageHandler printTable producer users ctx w).2.trace = lookups w.trace ∧
    sends (sendMessageHandler printTable producer users ctx w).2.trace = sends w.trace := by
  have hrun : (sendMessageHandler printTable producer users ctx w).1.status = 400 ∧
      (sendMessageHandler printTable producer users ctx w).2 = w := by
    cases hfrom : getIDFromRequest printTable (utf8 "fromID") ctx with
    | error e => simp [sendMessageHandler, hfrom, StatusBadRequest]
    | ok fromID =>
      have hto : badIDField ctx (utf8 "toID") := by
        rcases h with h | h
        · obtain ⟨e, he⟩ := getIDFromRequest_bad printTable ctx (utf8 "fromID") h
          rw [he] at hfrom; cases hfrom
        · exact h
      obtain ⟨e, he⟩ := getIDFromRequest_bad printTable ctx (utf8 "toID") hto
      simp [sendMessageHandler, hfrom, he, StatusBadRequest]
  exact ⟨hrun.1, hrun.2, by rw [hrun.2], by rw [hrun.2]⟩

/-- An instance, on a request whose `toID` is not a number and whose `fromID` is unknown to the
directory of `main`. -/
theorem bad_id_gives_400_witness :
    (badIDField ⟨[(utf8 "fromID", utf8 "99"), (utf8 "toID", utf8 "abc")]⟩ (utf8 "fromID") ∨
      badIDField ⟨[(utf8 "fromID", utf8 "99"), (utf8 "toID", utf8 "abc")]⟩ (utf8 "toID")) ∧
    (sendMessageHandler examplePrintTable appendBroker mainUsers
      ⟨[(utf8 "fromID", utf8 "99"), (utf8 "toID", utf8 "abc")]⟩ startWorld).1.status = 400 ∧
    (sendMessageHandler examplePrintTable appendBroker mainUsers
      ⟨[(utf8 "fromID", utf8 "99"), (utf8 "toID", utf8 "abc")]⟩ startWorld).2 = startWorld :=
  ⟨Or.inr (Or.inr (by decide)),
    (bad_id_gives_400 examplePrintTable appendBroker mainUsers
      ⟨[(utf8 "fromID", utf8 "99"), (utf8 "toID", utf8 "abc")]⟩ startWorld
      (Or.inr (Or.inr (by decide)))).1,
    (bad_id_gives_400 examplePrintTable appendBroker mainUsers
      ⟨[(utf8 "fromID", utf8 "99"), (utf8 "toID", utf8 "abc")]⟩ startWorld
      (Or.inr (Or.inr (by decide)))).2.1⟩

/-! ## Decimal rendering of ids -/

theorem digitsValue_snoc (ds : List Nat) (c : Nat) :
    digitsValue (ds ++ [c]) = digitsValue ds * 10 + (c - 48) := by
  simp [digitsValue, List.foldl_append]

theorem formatDigits_value (fuel n : Nat) (h : n < fuel) :
    digitsValue (formatDigits fuel n) = n := by
  induction fuel generalizing n with
  | zero => omega
  | succ fuel ih =>
    unfold formatDigits
    by_cases hn : n < 10
    · rw [if_pos hn]
      simp [digitsValue]
    · rw [if_neg hn, digitsValue_snoc, ih (n / 10) (by omega)]
      omega

theorem formatDigits_isDigit (fuel n : Nat) :
    ∀ c ∈ formatDigits fuel n, isDigitByte c = true := by
  induction fuel generalizing n with
  | zero => simp [formatDigits]
  | succ fuel ih =>
    unfold formatDigits
    by_cases hn : n < 10
    · rw [if_pos hn]
      intro c hc
      rw [List.mem_singleton] at hc
      subst hc
      simp [isDigitByte]; omega
    · rw [if_neg hn]
      intro c hc
      rcases List.mem_append.1 hc with hc | hc
      · exact ih _ c hc
      · rw [List.mem_singleton] at hc
        subst hc
        simp [isDigitByte]; omega

theorem formatUint_ne_nil (n : Nat) : formatUint n ≠ [] := by
  unfold formatUint formatDigits
  by_cases hn : n < 10
  · rw [if_pos hn]; simp
  · rw [if_neg hn]; simp

theorem formatUint_injective (m n : Nat) (h : formatUint m = formatUint n) : m = n := by
  have hm := formatDigits_value (m + 1) m (Nat.lt_succ_self m)
  have hn := formatDigits_value (n + 1) n (Nat.lt_succ_self n)
  unfold formatUint at h
  rw [h] at hm
  omega

theorem formatUint_no_minus (n : Nat) : 45 ∉ formatUint n := by
  intro hmem
  have := formatDigits_isDigit (n + 1) n 45 hmem
  simp [isDigitByte] at this

theorem Itoa_injective (i j : Int) : Itoa i = Itoa j ↔ i = j := by
  constructor
  · intro h
    unfold Itoa at h
    by_cases hi : i < 0 <;> by_cases hj : j < 0
    · rw [if_pos hi, if_pos hj] at h
      have := formatUint_injective _ _ (List.cons.inj h).2
      omega
    · rw [if_pos hi, if_neg hj] at h
      exact absurd (h ▸ List.mem_cons_self _ _) (formatUint_no_minus _)
    · rw [if_neg hi, if_pos hj] at h
      exact absurd (h ▸ List.mem_cons_self _ _) (formatUint_no_minus _)
    · rw [if_neg hi, if_neg hj] at h
      have := formatUint_injective _ _ h
      omega
  · intro h
    rw [h]

/-! ## Every outcome of a request -/

theorem sendKafkaMessage_resolved_msg {σ : Type} (producer : SyncProducer σ) (users : List User)
    (ctx : Context) (fromID toID : Int) (w : World σ) (fromUser toUser : User)
    (hf : findUserByID fromID users = .ok fromUser)
    (ht : findUserByID toID users = .ok toUser) :
    sendKafkaMessage producer users ctx fromID toID w =
      ((producer.SendMessage w.broker
          (producerMessage fromUser toUser (ctx.PostForm (utf8 "message")))).2.map GoError.foreign,
        { broker := (producer.SendMessage w.broker
            (producerMessage fromUser toUser (ctx.PostForm (utf8 "message")))).1,
          trace := w.trace ++ [Event.lookup fromID, Event.lookup toID,
            Event.send (producerMessage fromUser toUser (ctx.PostForm (utf8 "message")))
              (producer.SendMessage w.broker
                (producerMessage fromUser toUser (ctx.PostForm (utf8 "message")))).2] }) :=
  sendKafkaMessage_resolved producer users ctx fromID toID w fromUser toUser hf ht

/-- A request that is answered 200 went through every step. -/
theorem sendMessageHandler_ok {σ : Type} (printTable : Nat → Bool)
    (producer : SyncProducer σ) (users : List User)
    (ctx : Context) (w : World σ)
    (h : (sendMessageHandler printTable producer users ctx w).1.status = 200) :
    ∃ fromID toID fromUser toUser,
      Atoi printTable (ctx.PostForm (utf8 "fromID")) = .ok fromID ∧
      Atoi printTable (ctx.PostForm (utf8 "toID")) = .ok toID ∧
      findUserByID fromID users = .ok fromUser ∧ findUserByID toID users = .ok toUser ∧
      (producer.SendMessage w.broker
        (producerMessage fromUser toUser (ctx.PostForm (utf8 "message")))).2 = none ∧
      (sendMessageHandler printTable producer users ctx w).2.trace =
        w.trace ++ [Event.lookup fromID, Event.lookup toID,
          Event.send (producerMessage fromUser toUser (ctx.PostForm (utf8 "message"))) none] ∧
      (sendMessageHandler printTable producer users ctx w).2.broker =
        (producer.SendMessage w.broker
          (producerMessage fromUser toUser (ctx.PostForm (utf8 "message")))).1 := by
  cases hfrom : Atoi printTable (ctx.PostForm (utf8 "fromID")) with
  | error e =>
    simp [sendMessageHandler, getIDFromRequest, hfrom, StatusBadRequest] at h
  | ok fromID =>
    cases hto : Atoi printTable (ctx.PostForm (utf8 "toID")) with
    | error e =>
      simp [sendMessageHandler, getIDFromRequest, hfrom, hto, StatusBadRequest] at h
    | ok toID =>
      rw [sendMessageHandler_parsed printTable producer users ctx fromID toID w hfrom hto] at h ⊢
      rcases findUserByID_total fromID users with ⟨fu, hf⟩ | hf
      · rcases findUserByID_total toID users with ⟨tu, ht⟩ | ht
        · rw [sendKafkaMessage_resolved_msg producer users ctx fromID toID w fu tu hf ht] at h ⊢
          cases hs : (producer.SendMessage w.broker
              (producerMessage fu tu (ctx.PostForm (utf8 "message")))).2 with
          | some text =>
            rw [hs] at h
            simp [GoError.isUserNotFound] at h
          | none =>
            refine ⟨fromID, toID, fu, tu, rfl, rfl, hf, ht, hs, ?_, ?_⟩
            · simp
            · simp
        · rw [sendKafkaMessage_to_unknown producer users ctx fromID toID w fu hf ht] at h
          simp [ErrUserNotFoundInProducer, GoError.isUserNotFound] at h
      · rw [sendKafkaMessage_from_unknown producer users ctx fromID toID w hf] at h
        simp [ErrUserNotFoundInProducer, GoError.isUserNotFound] at h

/-- A request makes at most one call of `SendMessage`. -/
theorem sendMessageHandler_sends {σ : Type} (printTable : Nat → Bool)
    (producer : SyncProducer σ) (users : List User)
    (ctx : Context) (w : World σ) :
    ∃ l, sends (sendMessageHandler printTable producer users ctx w).2.trace = sends w.trace ++ l ∧
      l.length ≤ 1 := by
  cases hfrom : Atoi printTable (ctx.PostForm (utf8 "fromID")) with
  | error e =>
    exact ⟨[], by simp [sendMessageHandler, getIDFromRequest, hfrom], by simp⟩
  | ok fromID =>
    cases hto : Atoi printTable (ctx.PostForm (utf8 "toID")) with
    | error e =>
      exact ⟨[], by simp [sendMessageHandler, getIDFromRequest, hfrom, hto], by simp⟩
    | ok toID =>
      rw [sendMessageHandler_parsed printTable producer users ctx fromID toID w hfrom hto]
      rcases findUserByID_total fromID users with ⟨fu, hf⟩ | hf
      · rcases findUserByID_total toID users with ⟨tu, ht⟩ | ht
        · rw [sendKafkaMessage_resolved_msg producer users ctx fromID toID w fu tu hf ht]
          refine ⟨[producerMessage fu tu (ctx.PostForm (utf8 "message"))], ?_, by simp⟩
          cases hs : (producer.SendMessage w.broker
              (producerMessage fu tu (ctx.PostForm (utf8 "message")))).2 with
          | some text => simp [GoError.isUserNotFound, sends_append, sends]
          | none => simp [sends_append, sends]
        · rw [sendKafkaMessage_to_unknown producer users ctx fromID toID w fu hf ht]
          exact ⟨[], by simp [ErrUserNotFoundInProducer, GoError.isUserNotFound, sends_append,
            sends], by simp⟩
      · rw [sendKafkaMessage_from_unknown producer users ctx fromID toID w hf]
        exact ⟨[], by simp [ErrUserNotFoundInProducer, GoError.isUserNotFound, sends_append,
          sends], by simp⟩

/-- C10: the handler answers 200 only when both id fields parsed, both ids were found in the
directory, and the one call of `SendMessage` it made returned no error (the trace of the request
is the two look-ups followed by that acknowledged send); and whatever the request, it makes at
most one call of `SendMessage`. -/
theorem ok_only_after_acknowledged_send {σ : Type} (printTable : Nat → Bool)
    (producer : SyncProducer σ)
    (users : List User) (ctx : Context) (w : World σ) :
    ((sendMessageHandler printTable producer users ctx w).1.status = 200 →
      ∃ fromID toID fromUser toUser,
        Atoi printTable (ctx.PostForm (utf8 "fromID")) = .ok fromID ∧
      Atoi printTable (ctx.PostForm (utf8 "toID")) = .ok toID ∧
        findUserByID fromID users = .ok fromUser ∧ findUserByID toID users = .ok toUser ∧
        (producer.SendMessage w.broker
          (producerMessage fromUser toUser (ctx.PostForm (utf8 "message")))).2 = none ∧
        (sendMessageHandler printTable producer users ctx w).2.trace =
          w.trace ++ [Event.lookup fromID, Event.lookup toID,
            Event.send (producerMessage fromUser toUser (ctx.PostForm (utf8 "message"))) none] ∧
        sends (sendMessageHandler printTable producer users ctx w).2.trace =
          sends w.trace ++ [producerMessage fromUser toUser (ctx.PostForm (utf8 "message"))] ∧
        acked (sendMessageHandler printTable producer users ctx w).2.trace =
          acked w.trace ++ [producerMessage fromUser toUser (ctx.PostForm (utf8 "message"))]) ∧
    (∃ l, sends (sendMessageHandler printTable producer users ctx w).2.trace = sends w.trace ++ l ∧
      l.length ≤ 1) := by
  refine ⟨?_, sendMessageHandler_sends printTable producer users ctx w⟩
  intro h
  obtain ⟨fromID, toID, fu, tu, h1, h2, h3, h4, h5, h6, _⟩ :=
    sendMessageHandler_ok printTable producer users ctx w h
  refine ⟨fromID, toID, fu, tu, h1, h2, h3, h4, h5, h6, ?_, ?_⟩
  · rw [h6]; simp [sends_append, sends]
  · rw [h6]; simp [acked_append, acked]

/-- An instance, on a request that the directory of `main` and an accepting broker answer
with 200. -/
theorem ok_only_after_acknowledged_send_witness :
    (sendMessageHandler examplePrintTable appendBroker mainUsers
      ⟨[(utf8 "fromID", utf8 "1"), (utf8 "toID", utf8 "2"), (utf8 "message", utf8 "hi")]⟩
      startWorld).1.status = 200 ∧
    ∃ fromID toID fromUser toUser,
      Atoi examplePrintTable (utf8 "1") = .ok fromID ∧
      Atoi examplePrintTable (utf8 "2") = .ok toID ∧
      findUserByID fromID mainUsers = .ok fromUser ∧ findUserByID toID mainUsers = .ok toUser ∧
      sends (sendMessageHandler examplePrintTable appendBroker mainUsers
        ⟨[(utf8 "fromID", utf8 "1"), (utf8 "toID", utf8 "2"), (utf8 "message", utf8 "hi")]⟩
        startWorld).2.trace =
          [producerMessage fromUser toUser (utf8 "hi")] :=
  ⟨by decide,
    ((ok_only_after_acknowledged_send examplePrintTable appendBroker mainUsers
      ⟨[(utf8 "fromID", utf8 "1"), (utf8 "toID", utf8 "2"), (utf8 "message", utf8 "hi")]⟩
      startWorld).1 (by decide)).imp
      (fun _ h => h.imp (fun _ h => h.imp (fun _ h => h.imp
        (fun _ h => ⟨h.1, h.2.1, h.2.2.1, h.2.2.2.1, h.2.2.2.2.2.2.1⟩))))⟩

/-! ## The routing key -/

/-- C8: a request answered 200 sent exactly one message, whose key is `Itoa` of the id parsed
from the `toID` field, which is the `ID` of the recipient found in the directory; hence for two
such requests (whatever their directories, brokers, senders, messages and the spelling of the id
in the form) the keys are equal if and only if the recipient ids are equal. -/
theorem key_is_recipient_id {σ τ : Type} (printTable : Nat → Bool)
    (producer1 : SyncProducer σ) (producer2 : SyncProducer τ)
    (users1 users2 : List User) (ctx1 ctx2 : Context) (w1 : World σ) (w2 : World τ)
    (h1 : (sendMessageHandler printTable producer1 users1 ctx1 w1).1.status = 200)
    (h2 : (sendMessageHandler printTable producer2 users2 ctx2 w2).1.status = 200) :
    ∃ (toID1 toID2 : Int) (toUser1 toUser2 : User) (msg1 msg2 : ProducerMessage),
      Atoi printTable (ctx1.PostForm (utf8 "toID")) = .ok toID1 ∧
      Atoi printTable (ctx2.PostForm (utf8 "toID")) = .ok toID2 ∧
      findUserByID toID1 users1 = .ok toUser1 ∧ findUserByID toID2 users2 = .ok toUser2 ∧
      toUser1.ID = toID1 ∧ toUser2.ID = toID2 ∧
      sends (sendMessageHandler printTable producer1 users1 ctx1 w1).2.trace =
        sends w1.trace ++ [msg1] ∧
      sends (sendMessageHandler printTable producer2 users2 ctx2 w2).2.trace =
        sends w2.trace ++ [msg2] ∧
      msg1.Key = Itoa toID1 ∧ msg2.Key = Itoa toID2 ∧
      (msg1.Key = msg2.Key ↔ toID1 = toID2) := by
  obtain ⟨f1, t1, fu1, tu1, _, ht1, _, hr1, _, htr1, _⟩ :=
    sendMessageHandler_ok printTable producer1 users1 ctx1 w1 h1
  obtain ⟨f2, t2, fu2, tu2, _, ht2, _, hr2, _, htr2, _⟩ :=
    sendMessageHandler_ok printTable producer2 users2 ctx2 w2 h2
  have hid1 := (findUserByID_ok_ID t1 users1 tu1 hr1).1
  have hid2 := (findUserByID_ok_ID t2 users2 tu2 hr2).1
  refine ⟨t1, t2, tu1, tu2, producerMessage fu1 tu1 (ctx1.PostForm (utf8 "message")),
    producerMessage fu2 tu2 (ctx2.PostForm (utf8 "message")), ht1, ht2, hr1, hr2, hid1, hid2, ?_, ?_,
    ?_, ?_, ?_⟩
  · rw [htr1]; simp [sends_append, sends]
  · rw [htr2]; simp [sends_append, sends]
  · simp [producerMessage, hid1]
  · simp [producerMessage, hid2]
  · simp only [producerMessage, hid1, hid2]
    exact Itoa_injective t1 t2

/-- An instance, on two requests to recipient 2 that differ in sender, message and spelling
of the id. -/
theorem key_is_recipient_id_witness :
    ∃ (toID1 toID2 : Int) (msg1 msg2 : ProducerMessage),
      Atoi examplePrintTable (utf8 "2") = .ok toID1 ∧
      Atoi examplePrintTable (utf8 "+02") = .ok toID2 ∧
      sends (sendMessageHandler examplePrintTable appendBroker mainUsers
        ⟨[(utf8 "fromID", utf8 "1"), (utf8 "toID", utf8 "2"), (utf8 "message", utf8 "hi")]⟩
        startWorld).2.trace = [msg1] ∧
      sends (sendMessageHandler examplePrintTable appendBroker mainUsers
        ⟨[(utf8 "fromID", utf8 "3"), (utf8 "toID", utf8 "+02"), (utf8 "message", utf8 "bye")]⟩
        startWorld).2.trace = [msg2] ∧
      (msg1.Key = msg2.Key ↔ toID1 = toID2) :=
  (key_is_recipient_id examplePrintTable appendBroker appendBroker mainUsers mainUsers
    ⟨[(utf8 "fromID", utf8 "1"), (utf8 "toID", utf8 "2"), (utf8 "message", utf8 "hi")]⟩
    ⟨[(utf8 "fromID", utf8 "3"), (utf8 "toID", utf8 "+02"), (utf8 "message", utf8 "bye")]⟩
    startWorld startWorld (by decide) (by decide)).imp
    (fun _ h => h.imp (fun _ h => by
      obtain ⟨_, _, m1, m2, a, b, _, _, _, _, c, d, _, _, e⟩ := h
      exact ⟨m1, m2, a, b, c, d, e⟩))

/-! ## No deduplication -/

/-- C9: for ids that both match a user and a broker that acknowledges both sends, calling
`sendKafkaMessage` twice with the same arguments returns no error twice and adds two sends, both
acknowledged, of one and the same message (same topic, key and value): nothing is deduplicated. -/
theorem publish_twice_sends_twice {σ : Type} (producer : SyncProducer σ) (users : List User)
    (ctx : Context) (fromID toID : Int) (w : World σ) (fromUser toUser : User)
    (hf : findUserByID fromID users = .ok fromUser)
    (ht : findUserByID toID users = .ok toUser)
    (hs1 : (producer.SendMessage w.broker
      (producerMessage fromUser toUser (ctx.PostForm (utf8 "message")))).2 = none)
    (hs2 : (producer.SendMessage
      (producer.SendMessage w.broker
        (producerMessage fromUser toUser (ctx.PostForm (utf8 "message")))).1
      (producerMessage fromUser toUser (ctx.PostForm (utf8 "message")))).2 = none) :
    (sendKafkaMessage producer users ctx fromID toID w).1 = none ∧
    (sendKafkaMessage producer users ctx fromID toID
      (sendKafkaMessage producer users ctx fromID toID w).2).1 = none ∧
    sends (sendKafkaMessage producer users ctx fromID toID
      (sendKafkaMessage producer users ctx fromID toID w).2).2.trace =
        sends w.trace ++ [producerMessage fromUser toUser (ctx.PostForm (utf8 "message")),
          producerMessage fromUser toUser (ctx.PostForm (utf8 "message"))] ∧
    acked (sendKafkaMessage producer users ctx fromID toID
      (sendKafkaMessage producer users ctx fromID toID w).2).2.trace =
        acked w.trace ++ [producerMessage fromUser toUser (ctx.PostForm (utf8 "message")),
          producerMessage fromUser toUser (ctx.PostForm (utf8 "message"))] := by
  rw [sendKafkaMessage_resolved_msg producer users ctx fromID toID w fromUser toUser hf ht,
    sendKafkaMessage_resolved_msg producer users ctx fromID toID _ fromUser toUser hf ht]
  simp only [hs1, hs2]
  refine ⟨rfl, rfl, ?_, ?_⟩
  · simp [sends_append, sends]
  · simp [acked_append, acked]

/-- An instance, with the directory of `main` and a broker that appends to its topic: the
topic holds the message twice. -/
theorem publish_twice_sends_twice_witness :
    (sendKafkaMessage appendBroker mainUsers ⟨[(utf8 "message", utf8 "hi")]⟩ 1 2
      (sendKafkaMessage appendBroker mainUsers ⟨[(utf8 "message", utf8 "hi")]⟩ 1 2
        startWorld).2).2.broker =
        [producerMessage ⟨1, utf8 "Emma"⟩ ⟨2, utf8 "Bruno"⟩ (utf8 "hi"),
          producerMessage ⟨1, utf8 "Emma"⟩ ⟨2, utf8 "Bruno"⟩ (utf8 "hi")] ∧
    acked (sendKafkaMessage appendBroker mainUsers ⟨[(utf8 "message", utf8 "hi")]⟩ 1 2
      (sendKafkaMessage appendBroker mainUsers ⟨[(utf8 "message", utf8 "hi")]⟩ 1 2
        startWorld).2).2.trace =
        acked startWorld.trace ++
          [producerMessage ⟨1, utf8 "Emma"⟩ ⟨2, utf8 "Bruno"⟩
              (Context.PostForm ⟨[(utf8 "message", utf8 "hi")]⟩ (utf8 "message")),
            producerMessage ⟨1, utf8 "Emma"⟩ ⟨2, utf8 "Bruno"⟩
              (Context.PostForm ⟨[(utf8 "message", utf8 "hi")]⟩ (utf8 "message"))] :=
  ⟨by decide,
    (publish_twice_sends_twice appendBroker mainUsers ⟨[(utf8 "message", utf8 "hi")]⟩ 1 2
      startWorld ⟨1, utf8 "Emma"⟩ ⟨2, utf8 "Bruno"⟩ (by decide) (by decide) rfl rfl).2.2.2⟩

/-! ## Well-formed runes -/

theorem hexValue_hexDigit (n : Nat) : hexValue (hexDigit n) = some (n % 16) := by
  have h : n % 16 < 16 := Nat.mod_lt _ (by decide)
  unfold hexDigit
  generalize n % 16 = d at h
  interval_cases d <;> rfl

set_option maxHeartbeats 4000000 in
theorem decodeRune_eq (b : Nat) (bs : List Nat) (hb : 128 ≤ b) (c size : Nat)
    (hdec : decodeRune (b :: bs) = (c, size)) (h : ¬(c = RuneError ∧ size = 1)) :
    (b :: bs).take size = encodeRune c ∧ (∀ x ∈ encodeRune c, 128 ≤ x) ∧ 2 ≤ size := by
  have h128 : ¬ b < 128 := by omega
  rcases bs with _ | ⟨s1, _ | ⟨s2, _ | ⟨s3, tl⟩⟩⟩
  all_goals
    unfold decodeRune at hdec
    simp only [h128, if_false] at hdec
    split_ifs at hdec
    all_goals cases hdec
    all_goals first
      | (exfalso; exact h ⟨rfl, rfl⟩)
      | (unfold encodeRune
         simp only [List.take]
         split_ifs
         all_goals first
           | omega
           | (refine ⟨?_, ?_, by omega⟩
              · simp only [List.cons.injEq, and_true]
                omega
              · intro x hx
                simp only [List.mem_cons, List.mem_nil_iff, or_false] at hx
                omega))

/-- A rune that `decodeRune` accepts at a byte from 128 up is at least two bytes wide, these
bytes are its UTF-8 encoding, and each of them is 128 or more. -/
theorem decodeRune_wellFormed (b : Nat) (bs : List Nat) (hb : 128 ≤ b)
    (h : ¬((decodeRune (b :: bs)).1 = RuneError ∧ (decodeRune (b :: bs)).2 = 1)) :
    (b :: bs).take (decodeRune (b :: bs)).2 = encodeRune (decodeRune (b :: bs)).1 ∧
    (∀ x ∈ encodeRune (decodeRune (b :: bs)).1, 128 ≤ x) ∧
    2 ≤ (decodeRune (b :: bs)).2 :=
  decodeRune_eq b bs hb _ _ rfl h

/-! ## The loops never run out of fuel

Each loop over the runes of a string is started with the length of the string as fuel and uses
one unit per rune, so the fuel cannot run out: any fuel from the length of the input up gives
the same result. -/

theorem drop_rune_length (b : Nat) (bs : List Nat) (hb : ¬ b < 128)
    (h : ¬((decodeRune (b :: bs)).1 = RuneError ∧ (decodeRune (b :: bs)).2 = 1)) :
    ((b :: bs).drop (decodeRune (b :: bs)).2).length ≤ bs.length := by
  have h2 := (decodeRune_wellFormed b bs (by omega) h).2.2
  simp only [List.length_drop, List.length_cons]
  omega

theorem appendStringLoop_fuel (fuel1 fuel2 : Nat) (s : List Nat) (h1 : s.length ≤ fuel1)
    (h2 : s.length ≤ fuel2) : appendStringLoop fuel1 s = appendStringLoop fuel2 s := by
  induction fuel1 generalizing fuel2 s with
  | zero =>
    cases s with
    | nil => cases fuel2 <;> rfl
    | cons b bs => simp at h1
  | succ f1 ih =>
    cases s with
    | nil => cases fuel2 <;> rfl
    | cons b bs =>
      cases fuel2 with
      | zero => simp at h2
      | succ f2 =>
        simp only [List.length_cons, Nat.add_le_add_iff_right] at h1 h2
        unfold appendStringLoop
        by_cases hb : b < 128
        · rw [if_pos hb, if_pos hb, ih f2 bs h1 h2]
        · rw [if_neg hb, if_neg hb]
          by_cases hbad : (decodeRune (b :: bs)).1 = RuneError ∧ (decodeRune (b :: bs)).2 = 1
          · rw [if_pos hbad, if_pos hbad, ih f2 bs h1 h2]
          · have hd := drop_rune_length b bs hb hbad
            rw [if_neg hbad, if_neg hbad, ih f2 _ (by omega) (by omega)]

theorem coerceLoop_fuel (fuel1 fuel2 : Nat) (s : List Nat) (h1 : s.length ≤ fuel1)
    (h2 : s.length ≤ fuel2) : coerceLoop fuel1 s = coerceLoop fuel2 s := by
  induction fuel1 generalizing fuel2 s with
  | zero =>
    cases s with
    | nil => cases fuel2 <;> rfl
    | cons b bs => simp at h1
  | succ f1 ih =>
    cases s with
    | nil => cases fuel2 <;> rfl
    | cons b bs =>
      cases fuel2 with
      | zero => simp at h2
      | succ f2 =>
        simp only [List.length_cons, Nat.add_le_add_iff_right] at h1 h2
        unfold coerceLoop
        by_cases hb : b < 128
        · rw [if_pos hb, if_pos hb, ih f2 bs h1 h2]
        · rw [if_neg hb, if_neg hb]
          by_cases hbad : (decodeRune (b :: bs)).1 = RuneError ∧ (decodeRune (b :: bs)).2 = 1
          · rw [if_pos hbad, if_pos hbad, ih f2 bs h1 h2]
          · have hd := drop_rune_length b bs hb hbad
            rw [if_neg hbad, if_neg hbad, ih f2 _ (by omega) (by omega)]

theorem validLoop_fuel (fuel1 fuel2 : Nat) (s : List Nat) (h1 : s.length ≤ fuel1)
    (h2 : s.length ≤ fuel2) : validLoop fuel1 s = validLoop fuel2 s := by
  induction fuel1 generalizing fuel2 s with
  | zero =>
    cases s with
    | nil => cases fuel2 <;> rfl
    | cons b bs => simp at h1
  | succ f1 ih =>
    cases s with
    | nil => cases fuel2 <;> rfl
    | cons b bs =>
      cases fuel2 with
      | zero => simp at h2
      | succ f2 =>
        simp only [List.length_cons, Nat.add_le_add_iff_right] at h1 h2
        unfold validLoop
        by_cases hb : b < 128
        · rw [if_pos hb, if_pos hb, ih f2 bs h1 h2]
        · rw [if_neg hb, if_neg hb]
          by_cases hbad : (decodeRune (b :: bs)).1 = RuneError ∧ (decodeRune (b :: bs)).2 = 1
          · rw [if_pos hbad, if_pos hbad]
          · have hd := drop_rune_length b bs hb hbad
            rw [if_neg hbad, if_neg hbad, ih f2 _ (by omega) (by omega)]

theorem quoteLoop_fuel (printTable : Nat → Bool) (fuel1 fuel2 : Nat) (s : List Nat)
    (h1 : s.length ≤ fuel1) (h2 : s.length ≤ fuel2) :
    quoteLoop printTable fuel1 s = quoteLoop printTable fuel2 s := by
  induction fuel1 generalizing fuel2 s with
  | zero =>
    cases s with
    | nil => cases fuel2 <;> rfl
    | cons b bs => simp at h1
  | succ f1 ih =>
    cases s with
    | nil => cases fuel2 <;> rfl
    | cons b bs =>
      cases fuel2 with
      | zero => simp at h2
      | succ f2 =>
        simp only [List.length_cons, Nat.add_le_add_iff_right] at h1 h2
        unfold quoteLoop
        by_cases hb : b < 128
        · rw [if_pos hb, if_pos hb, ih f2 bs h1 h2]
        · rw [if_neg hb, if_neg hb]
          by_cases hbad : (decodeRune (b :: bs)).2 = 1 ∧ (decodeRune (b :: bs)).1 = RuneError
          · rw [if_pos hbad, if_pos hbad, ih f2 bs h1 h2]
          · have hd := drop_rune_length b bs hb (fun h => hbad ⟨h.2, h.1⟩)
            rw [if_neg hbad, if_neg hbad, ih f2 _ (by omega) (by omega)]

/-- The marshalled string, rune by rune: what `jsonString` writes for a string is what it writes
for its first rune followed by what it writes for the rest. -/
theorem appendStringLoop_cons (b : Nat) (bs : List Nat) :
    appendStringLoop (b :: bs).length (b :: bs) =
      if b < 128 then escapeByte b ++ appendStringLoop bs.length bs
      else if (decodeRune (b :: bs)).1 = RuneError ∧ (decodeRune (b :: bs)).2 = 1 then
        utf8 "\\ufffd" ++ appendStringLoop bs.length bs
      else if (decodeRune (b :: bs)).1 = 8232 ∨ (decodeRune (b :: bs)).1 = 8233 then
        utf8 "\\u202" ++ [hexDigit (decodeRune (b :: bs)).1] ++
          appendStringLoop ((b :: bs).drop (decodeRune (b :: bs)).2).length
            ((b :: bs).drop (decodeRune (b :: bs)).2)
      else
        (b :: bs).take (decodeRune (b :: bs)).2 ++
          appendStringLoop ((b :: bs).drop (decodeRune (b :: bs)).2).length
            ((b :: bs).drop (decodeRune (b :: bs)).2) := by
  rw [List.length_cons, appendStringLoop]
  by_cases hb : b < 128
  · rw [if_pos hb, if_pos hb]
  · rw [if_neg hb, if_neg hb]
    by_cases hbad : (decodeRune (b :: bs)).1 = RuneError ∧ (decodeRune (b :: bs)).2 = 1
    · rw [if_pos hbad, if_pos hbad]
    · have hd := drop_rune_length b bs hb hbad
      rw [if_neg hbad, if_neg hbad,
        appendStringLoop_fuel bs.length _ _ hd (Nat.le_refl _)]

/-! ## Reading back what `json.Marshal` wrote -/

/-- The reader undoes the escape of one byte below 128. -/
theorem readStringBody_escapeByte (b : Nat) (hb : b < 128) (acc tl : List Nat) :
    readStringBody .plain acc (escapeByte b ++ tl) = readStringBody .plain (b :: acc) tl := by
  have e48 : hexValue 48 = some 0 := rfl
  have enc : encodeRune b = [b] := by simp [encodeRune, hb]
  unfold escapeByte
  split_ifs with h2 h3 h4 h5 h6 h7 h8
  · obtain ⟨_, h34, _, _, _, h92⟩ := h2
    simp [readStringBody, h34, h92]
  · have hu : b ≠ 117 := by omega
    have h3a : b = 34 ∨ b = 92 ∨ b = 47 := by omega
    have hun : unescapeByte b = some b := by simp [unescapeByte, h3a]
    simp [readStringBody, hu, hun]
  · subst h4; rfl
  · subst h5; rfl
  · subst h6; rfl
  · subst h7; rfl
  · subst h8; rfl
  · have hw : b / 16 % 16 * 16 + b % 16 = b := by omega
    simp [readStringBody, e48, hexValue_hexDigit, hw, enc]

/-- The reader copies bytes from 128 up. -/
theorem readStringBody_raw (xs acc tl : List Nat) (h : ∀ x ∈ xs, 128 ≤ x) :
    readStringBody .plain acc (xs ++ tl) = readStringBody .plain (xs.reverse ++ acc) tl := by
  induction xs generalizing acc with
  | nil => rfl
  | cons x xs ih =>
    have hx : 128 ≤ x := h x (List.mem_cons_self _ _)
    have h34 : x ≠ 34 := by omega
    have h92 : x ≠ 92 := by omega
    rw [List.cons_append, readStringBody, if_neg h34, if_neg h92,
      ih (x :: acc) (fun y hy => h y (List.mem_cons_of_mem _ hy))]
    simp

/-- The reader undoes the six bytes written for an ill-formed byte. -/
theorem readStringBody_replacement (acc tl : List Nat) :
    readStringBody .plain acc (utf8 "\\ufffd" ++ tl) =
      readStringBody .plain ((encodeRune RuneError).reverse ++ acc) tl := by
  rfl

/-- The reader undoes the six bytes written for U+2028 and U+2029. -/
theorem readStringBody_separator (c : Nat) (hc : c = 8232 ∨ c = 8233) (acc tl : List Nat) :
    readStringBody .plain acc (utf8 "\\u202" ++ [hexDigit c] ++ tl) =
      readStringBody .plain ((encodeRune c).reverse ++ acc) tl := by
  rcases hc with rfl | rfl <;> rfl

/-- Reading a marshalled string gives the string coerced to valid UTF-8. -/
theorem readStringBody_appendString (fuel : Nat) (s acc rest : List Nat) :
    readStringBody .plain acc (appendStringLoop fuel s ++ 34 :: rest) =
      some (acc.reverse ++ coerceLoop fuel s, rest) := by
  induction fuel generalizing s acc with
  | zero =>
    cases s <;> simp [appendStringLoop, coerceLoop, readStringBody]
  | succ fuel ih =>
    cases s with
    | nil => simp [appendStringLoop, coerceLoop, readStringBody]
    | cons b bs =>
      unfold appendStringLoop coerceLoop
      by_cases hb : b < 128
      · rw [if_pos hb, if_pos hb, List.append_assoc, readStringBody_escapeByte b hb, ih]
        simp
      · rw [if_neg hb, if_neg hb]
        by_cases hbad : (decodeRune (b :: bs)).1 = RuneError ∧ (decodeRune (b :: bs)).2 = 1
        · rw [if_pos hbad, if_pos hbad, List.append_assoc, readStringBody_replacement, ih]
          simp
        · rw [if_neg hbad, if_neg hbad]
          obtain ⟨htake, hge, _⟩ := decodeRune_wellFormed b bs (by omega) hbad
          by_cases hsep : (decodeRune (b :: bs)).1 = 8232 ∨ (decodeRune (b :: bs)).1 = 8233
          · rw [if_pos hsep, List.append_assoc, readStringBody_separator _ hsep, ih, htake]
            simp
          · rw [if_neg hsep, List.append_assoc, htake, readStringBody_raw _ _ _ hge, ih]
            simp

theorem readStringBody_jsonString (s rest : List Nat) :
    readStringBody .plain [] (appendStringLoop s.length s ++ 34 :: rest) =
      some (coerceUTF8 s, rest) := by
  rw [readStringBody_appendString]
  rfl

/-- Coercion leaves well-formed UTF-8 as it is. -/
theorem coerceLoop_valid (fuel : Nat) (s : List Nat) (h : validLoop fuel s = true) :
    coerceLoop fuel s = s := by
  induction fuel generalizing s with
  | zero =>
    cases s with
    | nil => rfl
    | cons b bs => simp [validLoop] at h
  | succ fuel ih =>
    cases s with
    | nil => rfl
    | cons b bs =>
      unfold validLoop at h
      unfold coerceLoop
      by_cases hb : b < 128
      · rw [if_pos hb] at h ⊢
        rw [ih bs h]
      · rw [if_neg hb] at h ⊢
        by_cases hbad : (decodeRune (b :: bs)).1 = RuneError ∧ (decodeRune (b :: bs)).2 = 1
        · rw [if_pos hbad] at h
          exact absurd h (by decide)
        · rw [if_neg hbad] at h ⊢
          rw [ih _ h, List.take_append_drop]

theorem coerceUTF8_valid (s : GoString) (h : validUTF8 s = true) : coerceUTF8 s = s :=
  coerceLoop_valid s.length s h

theorem expectText_append (lit rest : List Nat) : expectText lit (lit ++ rest) = some rest := by
  induction lit with
  | nil => cases rest <;> rfl
  | cons l ls ih => simp [expectText, ih]

theorem takeWhile_digits (ds : List Nat) (c : Nat) (r : List Nat)
    (hds : ∀ d ∈ ds, isDigitByte d = true) (hc : isDigitByte c = false) :
    (ds ++ c :: r).takeWhile isDigitByte = ds ∧
      (ds ++ c :: r).dropWhile isDigitByte = c :: r := by
  induction ds with
  | nil => simp [List.takeWhile, List.dropWhile, hc]
  | cons d ds ih =>
    have hd : isDigitByte d = true := hds d (List.mem_cons_self _ _)
    have := ih (fun x hx => hds x (List.mem_cons_of_mem _ hx))
    simp [List.takeWhile, List.dropWhile, hd, this.1, this.2]

theorem readDigits_formatUint (n : Nat) (c : Nat) (r : List Nat) (hc : isDigitByte c = false) :
    readDigits (formatUint n ++ c :: r) = some (n, c :: r) := by
  have h := takeWhile_digits (formatUint n) c r (formatDigits_isDigit _ _) hc
  have hv : digitsValue (formatUint n) = n := formatDigits_value (n + 1) n (Nat.lt_succ_self n)
  unfold readDigits
  rw [h.1, h.2]
  cases hf : formatUint n with
  | nil => exact absurd hf (formatUint_ne_nil n)
  | cons d ds => rw [hf] at hv; simp [hv]

theorem readInt_Itoa (i : Int) (c : Nat) (r : List Nat) (hc : isDigitByte c = false) :
    readInt (Itoa i ++ c :: r) = some (i, c :: r) := by
  unfold Itoa
  by_cases hi : i < 0
  · rw [if_pos hi]
    have hv : -(i.natAbs : Int) = i := by omega
    simp only [List.cons_append, readInt, if_true, readDigits_formatUint _ c r hc,
      Option.map_some', hv]
  · rw [if_neg hi]
    have hv : (i.natAbs : Int) = i := by omega
    cases hf : formatUint i.natAbs with
    | nil => exact absurd hf (formatUint_ne_nil _)
    | cons d ds =>
      have hd45 : d ≠ 45 := by
        intro h
        have hmem : (45 : Nat) ∈ formatUint i.natAbs := by rw [hf, h]; exact List.mem_cons_self _ _
        exact formatUint_no_minus _ hmem
      have hr := readDigits_formatUint i.natAbs c r hc
      rw [hf] at hr
      simp only [List.cons_append] at hr ⊢
      simp [readInt, hd45, hr, hv]

theorem readUser_marshalUser (u : User) (rest : List Nat) :
    readUser (marshalUser u ++ rest) = some (coerceUser u, rest) := by
  have hdata : marshalUser u ++ rest =
      utf8 "\x7b\"id\":" ++ (Itoa u.ID ++ 44 :: (utf8 "\"name\":\"" ++
        (appendStringLoop u.Name.length u.Name ++ 34 :: (utf8 "\x7d" ++ rest)))) := by
    have h1 : utf8 ",\"name\":" = 44 :: utf8 "\"name\":" := rfl
    have h2 : ∀ xs : List Nat, utf8 "\"name\":" ++ 34 :: xs = utf8 "\"name\":\"" ++ xs :=
      fun _ => rfl
    simp only [marshalUser, jsonString, h1, List.append_assoc, List.cons_append,
      List.nil_append, h2]
  have hcomma : isDigitByte 44 = false := rfl
  have hlit : ∀ xs : List Nat, 44 :: (utf8 "\"name\":\"" ++ xs) = utf8 ",\"name\":\"" ++ xs :=
    fun _ => rfl
  unfold readUser
  rw [hdata, expectText_append]
  simp only [Option.bind_eq_bind, Option.some_bind, readInt_Itoa _ _ _ hcomma]
  rw [hlit, expectText_append]
  simp only [Option.some_bind, readStringBody_jsonString, expectText_append]
  rfl

/-- Reading a marshalled notification gives the notification with its three texts coerced to
valid UTF-8. -/
theorem readNotification_marshalNotification (n : Notification) :
    readNotification (marshalNotification n) = some (coerceNotification n) := by
  have hdata : marshalNotification n =
      utf8 "\x7b\"from\":" ++ (marshalUser n.From ++ (utf8 ",\"to\":" ++
        (marshalUser n.To ++ (utf8 ",\"message\":\"" ++
          (appendStringLoop n.Message.length n.Message ++ 34 :: (utf8 "\x7d" ++ [])))))) := by
    have h2 : ∀ xs : List Nat, utf8 ",\"message\":" ++ 34 :: xs = utf8 ",\"message\":\"" ++ xs :=
      fun _ => rfl
    simp only [marshalNotification, jsonString, List.append_assoc, List.cons_append,
      List.nil_append, List.append_nil, h2]
  unfold readNotification
  rw [hdata, expectText_append]
  simp only [Option.bind_eq_bind, Option.some_bind, readUser_marshalUser, expectText_append,
    readStringBody_jsonString]
  rfl

/-- A notification whose names and message are well-formed UTF-8 reads back as itself. -/
theorem readNotification_valid (n : Notification) (hf : validUTF8 n.From.Name = true)
    (ht : validUTF8 n.To.Name = true) (hm : validUTF8 n.Message = true) :
    readNotification (marshalNotification n) = some n := by
  rw [readNotification_marshalNotification]
  simp only [coerceNotification, coerceUser, coerceUTF8_valid _ hf, coerceUTF8_valid _ ht,
    coerceUTF8_valid _ hm]

/-- What `json.Marshal` writes is the JSON object of the publication format. -/
theorem marshalNotification_eq_notificationJson (n : Notification) :
    marshalNotification n = notificationJson n := by
  have e1 : jsonString (utf8 "id") = utf8 "\"id\"" := by decide
  have e2 : jsonString (utf8 "name") = utf8 "\"name\"" := by decide
  have e3 : jsonString (utf8 "from") = utf8 "\"from\"" := by decide
  have e4 : jsonString (utf8 "to") = utf8 "\"to\"" := by decide
  have e5 : jsonString (utf8 "message") = utf8 "\"message\"" := by decide
  have l1 : utf8 "\x7b\"id\":" = utf8 "\x7b" ++ (utf8 "\"id\"" ++ utf8 ":") := by decide
  have l2 : utf8 ",\"name\":" = utf8 "," ++ (utf8 "\"name\"" ++ utf8 ":") := by decide
  have l3 : utf8 "\x7b\"from\":" = utf8 "\x7b" ++ (utf8 "\"from\"" ++ utf8 ":") := by decide
  have l4 : utf8 ",\"to\":" = utf8 "," ++ (utf8 "\"to\"" ++ utf8 ":") := by decide
  have l5 : utf8 ",\"message\":" = utf8 "," ++ (utf8 "\"message\"" ++ utf8 ":") := by decide
  simp only [marshalNotification, marshalUser, notificationJson, userJson, jsonObject,
    jsonMembers, jsonMember, e1, e2, e3, e4, e5, l1, l2, l3, l4, l5, List.append_assoc]

/-! ## What reaches the broker -/

/-- C2, as amended: when both ids match a user of the directory, `sendKafkaMessage` looks both
up and calls `SendMessage` exactly once, with the topic "notification", the key `Itoa toID`, and
as value the marshalled notification whose `From` and `To` are the directory entries found for
the two ids and whose `Message` is the submitted text. Read back, the value gives the ids of
these entries, and their names and the submitted text with every byte that is not part of
well-formed UTF-8 replaced by U+FFFD; so it gives exactly the entries and the text whenever the
two names and the text are well-formed UTF-8. -/
theorem resolved_sends_exactly_once {σ : Type} (producer : SyncProducer σ) (users : List User)
    (ctx : Context) (fromID toID : Int) (w : World σ) (fromUser toUser : User)
    (hf : findUserByID fromID users = .ok fromUser)
    (ht : findUserByID toID users = .ok toUser) :
    ∃ msg : ProducerMessage,
      sends (sendKafkaMessage producer users ctx fromID toID w).2.trace = sends w.trace ++ [msg] ∧
      (sendKafkaMessage producer users ctx fromID toID w).2.trace =
        w.trace ++ [Event.lookup fromID, Event.lookup toID,
          Event.send msg (producer.SendMessage w.broker msg).2] ∧
      (sendKafkaMessage producer users ctx fromID toID w).2.broker =
        (producer.SendMessage w.broker msg).1 ∧
      (sendKafkaMessage producer users ctx fromID toID w).1 =
        (producer.SendMessage w.broker msg).2.map GoError.foreign ∧
      msg.Topic = utf8 "notification" ∧
      msg.Key = Itoa toID ∧
      msg.Value = marshalNotification
        { From := fromUser, To := toUser, Message := ctx.PostForm (utf8 "message") } ∧
      readNotification msg.Value =
        some { From := { ID := fromUser.ID, Name := coerceUTF8 fromUser.Name },
               To := { ID := toUser.ID, Name := coerceUTF8 toUser.Name },
               Message := coerceUTF8 (ctx.PostForm (utf8 "message")) } ∧
      (validUTF8 fromUser.Name = true → validUTF8 toUser.Name = true →
        validUTF8 (ctx.PostForm (utf8 "message")) = true →
        readNotification msg.Value =
          some { From := fromUser, To := toUser, Message := ctx.PostForm (utf8 "message") }) ∧
      fromUser ∈ users ∧ fromUser.ID = fromID ∧ toUser ∈ users ∧ toUser.ID = toID := by
  have hfu := findUserByID_ok_ID fromID users fromUser hf
  have htu := findUserByID_ok_ID toID users toUser ht
  refine ⟨producerMessage fromUser toUser (ctx.PostForm (utf8 "message")), ?_⟩
  rw [sendKafkaMessage_resolved_msg producer users ctx fromID toID w fromUser toUser hf ht]
  refine ⟨?_, rfl, rfl, rfl, rfl, ?_, rfl, ?_, ?_, hfu.2, hfu.1, htu.2, htu.1⟩
  · simp [sends_append, sends]
  · simp [producerMessage, htu.1]
  · exact readNotification_marshalNotification _
  · intro h1 h2 h3
    exact readNotification_valid _ h1 h2 h3

/-- An instance, at the directory of `main`, from user 1 to user 2: with a message that is not
well-formed UTF-8 the value reads back coerced, with the message `hi` it reads back as sent. -/
theorem resolved_sends_exactly_once_witness :
    (∃ msg : ProducerMessage,
      sends (sendKafkaMessage appendBroker mainUsers illFormedRequest 1 2 startWorld).2.trace =
          sends startWorld.trace ++ [msg] ∧
      msg.Topic = utf8 "notification" ∧ msg.Key = Itoa 2 ∧
      readNotification msg.Value =
        some { From := { ID := 1, Name := coerceUTF8 (utf8 "Emma") },
               To := { ID := 2, Name := coerceUTF8 (utf8 "Bruno") },
               Message := coerceUTF8 (illFormedRequest.PostForm (utf8 "message")) }) ∧
    (∃ msg : ProducerMessage,
      sends (sendKafkaMessage appendBroker mainUsers ⟨[(utf8 "message", utf8 "hi")]⟩ 1 2
        startWorld).2.trace = sends startWorld.trace ++ [msg] ∧
      readNotification msg.Value =
        some { From := { ID := 1, Name := utf8 "Emma" }, To := { ID := 2, Name := utf8 "Bruno" },
               Message := Context.PostForm ⟨[(utf8 "message", utf8 "hi")]⟩ (utf8 "message") }) :=
  ⟨(resolved_sends_exactly_once appendBroker mainUsers illFormedRequest 1 2 startWorld
      { ID := 1, Name := utf8 "Emma" } { ID := 2, Name := utf8 "Bruno" } (by decide)
      (by decide)).imp
      (fun _ h => ⟨h.1, h.2.2.2.2.1, h.2.2.2.2.2.1, h.2.2.2.2.2.2.2.1⟩),
    (resolved_sends_exactly_once appendBroker mainUsers ⟨[(utf8 "message", utf8 "hi")]⟩ 1 2
      startWorld { ID := 1, Name := utf8 "Emma" } { ID := 2, Name := utf8 "Bruno" } (by decide)
      (by decide)).imp
      (fun _ h => ⟨h.1, h.2.2.2.2.2.2.2.2.1 (by decide) (by decide) (by decide)⟩)⟩

set_option maxRecDepth 100000 in
/-- C2, as first stated, fails: on the directory of `main`, with ids 1 and 2 that both match a
user and the submitted message `a`, 0xFF, `b`, the one value sent carries the message
`a`, U+FFFD, `b`; the byte 0xFF occurs nowhere in it, and what reads back as its message is not
the submitted text. -/
theorem ill_formed_message_is_not_sent_as_submitted :
    findUserByID 1 mainUsers = .ok { ID := 1, Name := utf8 "Emma" } ∧
    findUserByID 2 mainUsers = .ok { ID := 2, Name := utf8 "Bruno" } ∧
    illFormedRequest.PostForm (utf8 "message") = [97, 255, 98] ∧
    sends (sendKafkaMessage appendBroker mainUsers illFormedRequest 1 2 startWorld).2.trace =
      [{ Topic := utf8 "notification", Key := utf8 "2", Value := coercedValue }] ∧
    255 ∉ coercedValue ∧
    readNotification coercedValue =
      some { From := { ID := 1, Name := utf8 "Emma" }, To := { ID := 2, Name := utf8 "Bruno" },
             Message := [97, 239, 191, 189, 98] } ∧
    ¬ (readNotification coercedValue =
      some { From := { ID := 1, Name := utf8 "Emma" }, To := { ID := 2, Name := utf8 "Bruno" },
             Message := illFormedRequest.PostForm (utf8 "message") }) := by
  refine ⟨by decide, by decide, by decide, by decide, by decide, by decide, by decide⟩

theorem Atoi_of_parseInt (printTable : Nat → Bool) (s : GoString) (n : Int)
    (h : parseInt s = .ok n) : Atoi printTable s = .ok n := by
  simp only [Atoi, h]

set_option maxRecDepth 100000 in
/-- C7: for a resolved sender and recipient, the value handed to the broker is the JSON object
with the members `from`, `to` and `message`, in this order, each user being the object with the
members `id` (the decimal id) and `name` (a JSON string); and in the scenario of the directory
Emma (1), Bruno (2) and the form `fromID=1`, `toID=2`, `message=hi`, the one message sent has
the key "2" and the value spelled out in `scenarioMessage`, and the answer is 200 when the
broker acknowledges it. -/
theorem broker_value_is_notification_json {σ : Type} (printTable : Nat → Bool)
    (producer : SyncProducer σ) (users : List User) (ctx : Context) (fromID toID : Int)
    (w : World σ) (fromUser toUser : User)
    (hf : findUserByID fromID users = .ok fromUser)
    (ht : findUserByID toID users = .ok toUser) :
    (∃ err, (sendKafkaMessage producer users ctx fromID toID w).2.trace =
      w.trace ++ [Event.lookup fromID, Event.lookup toID,
        Event.send
          { Topic := utf8 "notification", Key := Itoa toID,
            Value := jsonObject
              [(utf8 "from", jsonObject
                  [(utf8 "id", Itoa fromUser.ID), (utf8 "name", jsonString fromUser.Name)]),
                (utf8 "to", jsonObject
                  [(utf8 "id", Itoa toUser.ID), (utf8 "name", jsonString toUser.Name)]),
                (utf8 "message", jsonString (ctx.PostForm (utf8 "message")))] } err]) ∧
    (∀ scenario : Context, scenario.PostForm (utf8 "fromID") = utf8 "1" →
      scenario.PostForm (utf8 "toID") = utf8 "2" →
      scenario.PostForm (utf8 "message") = utf8 "hi" →
      (producer.SendMessage w.broker scenarioMessage).2 = none →
      sendMessageHandler printTable producer scenarioUsers scenario w =
        ({ status := 200, message := utf8 "Notification sent successfully!" },
          { broker := (producer.SendMessage w.broker scenarioMessage).1,
            trace := w.trace ++
              [Event.lookup 1, Event.lookup 2, Event.send scenarioMessage none] })) := by
  have hjson : jsonObject
      [(utf8 "from", jsonObject
          [(utf8 "id", Itoa fromUser.ID), (utf8 "name", jsonString fromUser.Name)]),
        (utf8 "to", jsonObject
          [(utf8 "id", Itoa toUser.ID), (utf8 "name", jsonString toUser.Name)]),
        (utf8 "message", jsonString (ctx.PostForm (utf8 "message")))] =
      marshalNotification
        { From := fromUser, To := toUser, Message := ctx.PostForm (utf8 "message") } := by
    rw [marshalNotification_eq_notificationJson]
    simp only [notificationJson, userJson]
  refine ⟨?_, ?_⟩
  · rw [hjson, sendKafkaMessage_resolved_msg producer users ctx fromID toID w fromUser toUser hf ht]
    refine ⟨(producer.SendMessage w.broker
      (producerMessage fromUser toUser (ctx.PostForm (utf8 "message")))).2, ?_⟩
    simp only [producerMessage, (findUserByID_ok_ID toID users toUser ht).1]
    rfl
  · intro scenario hfrom hto hmsg hack
    have hmsgEq : producerMessage { ID := 1, Name := utf8 "Emma" }
        { ID := 2, Name := utf8 "Bruno" } (utf8 "hi") = scenarioMessage := by
      decide
    rw [sendMessageHandler_parsed printTable producer scenarioUsers scenario 1 2 w
        (by rw [hfrom]; exact Atoi_of_parseInt _ _ _ (by decide))
        (by rw [hto]; exact Atoi_of_parseInt _ _ _ (by decide)),
      sendKafkaMessage_resolved_msg producer scenarioUsers scenario 1 2 w
        { ID := 1, Name := utf8 "Emma" } { ID := 2, Name := utf8 "Bruno" } (by decide)
        (by decide), hmsg, hmsgEq, hack]
    rfl

/-- An instance, in the scenario itself, with a broker that appends to its topic. -/
theorem broker_value_is_notification_json_witness :
    sendMessageHandler examplePrintTable appendBroker scenarioUsers
        ⟨[(utf8 "fromID", utf8 "1"), (utf8 "toID", utf8 "2"), (utf8 "message", utf8 "hi")]⟩
        startWorld =
      ({ status := 200, message := utf8 "Notification sent successfully!" },
        { broker := [scenarioMessage],
          trace := [Event.lookup 1, Event.lookup 2, Event.send scenarioMessage none] }) :=
  (broker_value_is_notification_json examplePrintTable appendBroker scenarioUsers
    ⟨[(utf8 "fromID", utf8 "1"), (utf8 "toID", utf8 "2"), (utf8 "message", utf8 "hi")]⟩ 1 2
    startWorld { ID := 1, Name := utf8 "Emma" } { ID := 2, Name := utf8 "Bruno" } (by decide)
    (by decide)).2
    ⟨[(utf8 "fromID", utf8 "1"), (utf8 "toID", utf8 "2"), (utf8 "message", utf8 "hi")]⟩
    (by decide) (by decide) (by decide) rfl

/-! ## Parsed ids fit the Go `int` -/

theorem parseInt_range (s : List Nat) (n : Int) (h : parseInt s = .ok n) :
    minInt ≤ n ∧ n ≤ maxInt := by
  unfold parseInt at h
  cases s with
  | nil => simp at h
  | cons c cs =>
    simp only at h
    split at h
    · simp at h
    · split at h
      · simp at h
      · rename_i un _
        by_cases h1 : decide (c = 45) = false ∧ un ≥ 2 ^ 63
        · rw [if_pos h1] at h; simp at h
        · rw [if_neg h1] at h
          by_cases h2 : decide (c = 45) = true ∧ un > 2 ^ 63
          · rw [if_pos h2] at h; simp at h
          · rw [if_neg h2] at h
            injection h with h
            unfold minInt maxInt
            cases hneg : decide (c = 45) with
            | true =>
              rw [hneg] at h h2
              simp only [if_true] at h
              have : un ≤ 2 ^ 63 := by simpa using h2
              omega
            | false =>
              rw [hneg] at h h1
              simp only [Bool.false_eq_true, if_false] at h
              have : un < 2 ^ 63 := by simpa using h1
              omega

theorem Atoi_range (printTable : Nat → Bool) (s : GoString) (n : Int)
    (h : Atoi printTable s = .ok n) : minInt ≤ n ∧ n ≤ maxInt := by
  unfold Atoi at h
  cases hp : parseInt s with
  | error e => rw [hp] at h; simp at h
  | ok m =>
    rw [hp] at h
    injection h with h
    exact h ▸ parseInt_range s m hp

end KafkaNotify
